import Mathlib

/-!
Verification development for the haven-chat server's backup restore &
verification engine (src/api/exports.rs).

The Rust handlers are shallowly embedded as pure Lean functions:
* the database is an explicit `DbState` record threaded through the
  operations; sqlx transactions become `(Except AppError α) × DbState`
  results where an error returns the pre-call state (rollback);
* external collaborators (membership lookup, permission aggregation,
  user directory, Ed25519 verification) are fields of an `Env` record,
  matching the spec's "external collaborators" boundary;
* `serde_json::Value` becomes the `Json` inductive below; machine
  integers (i64 bitmasks, positions) become `Int`.
-/

/-- Error taxonomy of crate::errors::AppError (the variants used by
src/api/exports.rs). -/
inductive AppError where
  | Validation (msg : String)
  | Forbidden (msg : String)
  | NotFound (msg : String)
  deriving DecidableEq, Repr

/-! ## JSON values

Models `serde_json::Value`.  Arrays and objects are separate inductives
(isomorphic to `List Json` / `List (String × Json)`, see `toList` below)
so that all functions are plain mutual structural recursions that the
kernel can evaluate.  Numbers are modelled at `Int` granularity
(`serde_json::Number` holding an i64/u64; float payloads are out of
scope of the embedding). -/
mutual
inductive Json where
  | null : Json
  | bool (b : Bool) : Json
  | num (n : Int) : Json
  | str (s : String) : Json
  | arr (xs : JsonArr) : Json
  | obj (kvs : JsonObj) : Json
inductive JsonArr where
  | nil : JsonArr
  | cons (hd : Json) (tl : JsonArr) : JsonArr
inductive JsonObj where
  | nil : JsonObj
  | cons (k : String) (v : Json) (tl : JsonObj) : JsonObj
end

def JsonArr.toList : JsonArr → List Json
  | .nil => []
  | .cons x xs => x :: xs.toList

def JsonObj.toList : JsonObj → List (String × Json)
  | .nil => []
  | .cons k v t => (k, v) :: t.toList

def JsonObj.ofList : List (String × Json) → JsonObj
  | [] => .nil
  | (k, v) :: t => .cons k v (JsonObj.ofList t)

/-- Insert a key/value pair into a key-sorted association list, replacing
an existing binding for the same key.  This is `BTreeMap::insert` as used
by serde_json's map type (default feature set, no preserve_order). -/
def insertKV (k : String) (v : Json) : List (String × Json) → List (String × Json)
  | [] => [(k, v)]
  | (k', v') :: rest =>
    if k < k' then (k, v) :: (k', v') :: rest
    else if k = k' then (k, v) :: rest
    else (k', v') :: insertKV k v rest

/-- Fold the document-order pairs of a JSON object into a serde_json map:
keys end up sorted lexicographically, and a duplicated key keeps the last
value (repeated `BTreeMap::insert`). -/
def dedupSortKvs (kvs : List (String × Json)) : List (String × Json) :=
  kvs.foldl (fun acc kv => insertKV kv.1 kv.2 acc) []

/- Normalization performed by deserializing JSON text into
`serde_json::Value`: every object's pairs are collected into a
`BTreeMap<String, Value>`, which sorts keys and deduplicates (last
occurrence wins).  `verify_export` receives its manifest through
`Json(req)`, i.e. after exactly this normalization. -/
mutual
def Json.normalize : Json → Json
  | .null => .null
  | .bool b => .bool b
  | .num n => .num n
  | .str s => .str s
  | .arr xs => .arr (JsonArr.normalize xs)
  | .obj kvs => .obj (JsonObj.ofList (dedupSortKvs (JsonObj.toList (JsonObj.normalize kvs))))
def JsonArr.normalize : JsonArr → JsonArr
  | .nil => .nil
  | .cons x xs => .cons (Json.normalize x) (JsonArr.normalize xs)
def JsonObj.normalize : JsonObj → JsonObj
  | .nil => .nil
  | .cons k v t => .cons k (Json.normalize v) (JsonObj.normalize t)
end

/-- JSON string escaping of serde_json's compact serializer: double
quote and backslash get a two-character escape, the control characters
with short forms use them, any other control character becomes a
\u00XX escape, everything else is emitted verbatim (UTF-8). -/
def escapeChar (c : Char) : String :=
  if c = '"' then "\\\""
  else if c = '\\' then "\\\\"
  else if c = '\x08' then "\\b"
  else if c = '\x0c' then "\\f"
  else if c = '\n' then "\\n"
  else if c = '\r' then "\\r"
  else if c = '\t' then "\\t"
  else if c.toNat < 32 then
    let hex := fun (n : Nat) => String.singleton (Nat.digitChar n)
    "\\u00" ++ hex (c.toNat / 16) ++ hex (c.toNat % 16)
  else String.singleton c

def escapeString (s : String) : String :=
  s.data.foldl (fun acc c => acc ++ escapeChar c) ""

/- Compact serialization of a `serde_json::Value`, as produced by
`serde_json::to_vec` (UTF-8 bytes of the compact rendering; byte-level
equality coincides with string equality here). -/
mutual
def Json.serialize : Json → String
  | .null => "null"
  | .bool b => if b then "true" else "false"
  | .num n => toString n
  | .str s => "\"" ++ escapeString s ++ "\""
  | .arr xs => "[" ++ JsonArr.serialize xs ++ "]"
  | .obj kvs => "\x7b" ++ JsonObj.serialize kvs ++ "\x7d"
def JsonArr.serialize : JsonArr → String
  | .nil => ""
  | .cons x .nil => Json.serialize x
  | .cons x (.cons y ys) => Json.serialize x ++ "," ++ JsonArr.serialize (.cons y ys)
def JsonObj.serialize : JsonObj → String
  | .nil => ""
  | .cons k v .nil => "\"" ++ escapeString k ++ "\":" ++ Json.serialize v
  | .cons k v (.cons k' v' t) =>
      "\"" ++ escapeString k ++ "\":" ++ Json.serialize v ++ "," ++
        JsonObj.serialize (.cons k' v' t)
end

/-- Lookup of `Value::get(key)`: `BTreeMap::get` on objects, `None` on
every other variant. -/
def Json.get : Json → String → Option Json
  | .obj kvs, k => (kvs.toList.find? (fun kv => kv.1 == k)).map (fun kv => kv.2)
  | _, _ => none

/-- Models `Value::as_str`. -/
def Json.asStr : Json → Option String
  | .str s => some s
  | _ => none

/-! ## Logical equality of manifests

Two JSON documents have the same logical content when they agree up to
object-key order: every object level has duplicate-free keys, the same
key set, and logically equal values key by key; arrays must agree
pointwise.  The quantified premises make the derivation a plain
(non-nested) inductive, giving a usable induction principle. -/
inductive JsonEquiv : Json → Json → Prop where
  | null : JsonEquiv .null .null
  | bool (b : Bool) : JsonEquiv (.bool b) (.bool b)
  | num (n : Int) : JsonEquiv (.num n) (.num n)
  | str (s : String) : JsonEquiv (.str s) (.str s)
  | arr (xs ys : JsonArr) (hlen : xs.toList.length = ys.toList.length)
      (hv : ∀ i (h1 : i < xs.toList.length) (h2 : i < ys.toList.length),
        JsonEquiv (xs.toList.get ⟨i, h1⟩) (ys.toList.get ⟨i, h2⟩)) :
      JsonEquiv (.arr xs) (.arr ys)
  | obj (kvs1 kvs2 : JsonObj)
      (hn1 : (kvs1.toList.map Prod.fst).Nodup)
      (hn2 : (kvs2.toList.map Prod.fst).Nodup)
      (hkeys : ∀ k, k ∈ kvs1.toList.map Prod.fst ↔ k ∈ kvs2.toList.map Prod.fst)
      (hv : ∀ k v1 v2, (k, v1) ∈ kvs1.toList → (k, v2) ∈ kvs2.toList →
        JsonEquiv v1 v2) :
      JsonEquiv (.obj kvs1) (.obj kvs2)

/-! ## Transport decoding helpers -/

/-- Value of one character of the standard base64 alphabet. -/
def b64Val (c : Char) : Option Nat :=
  if 'A' ≤ c ∧ c ≤ 'Z' then some (c.toNat - 65)
  else if 'a' ≤ c ∧ c ≤ 'z' then some (c.toNat - 97 + 26)
  else if '0' ≤ c ∧ c ≤ '9' then some (c.toNat - 48 + 52)
  else if c = '+' then some 62
  else if c = '/' then some 63
  else none

/-- Chunked base64 decoding: four characters at a time, padding allowed
only in the final chunk, and the unused trailing bits of a padded chunk
must be zero (base64::engine::general_purpose::STANDARD rejects both
non-canonical padding and non-zero trailing bits).  A length that is not
a multiple of four is rejected, as STANDARD requires padding. -/
def b64Chunks : List Char → Option (List Nat)
  | [] => some []
  | c1 :: c2 :: c3 :: c4 :: rest =>
    match b64Val c1, b64Val c2 with
    | some v1, some v2 =>
      if c3 = '=' then
        if c4 = '=' ∧ rest = [] ∧ v2 % 16 = 0 then some [v1 * 4 + v2 / 16] else none
      else
        match b64Val c3 with
        | some v3 =>
          if c4 = '=' then
            if rest = [] ∧ v3 % 4 = 0 then
              some [v1 * 4 + v2 / 16, (v2 % 16) * 16 + v3 / 4]
            else none
          else
            match b64Val c4 with
            | some v4 =>
              (b64Chunks rest).map
                (fun bs => (v1 * 4 + v2 / 16) :: ((v2 % 16) * 16 + v3 / 4) ::
                  ((v3 % 4) * 64 + v4) :: bs)
            | none => none
        | none => none
    | _, _ => none
  | _ => none

/-- Models `base64::Engine::decode(&general_purpose::STANDARD, s)`:
`some bytes` on success, `none` on any decode error. -/
def base64Decode (s : String) : Option (List Nat) :=
  b64Chunks s.data

def isHexDigit (c : Char) : Bool :=
  ('0' ≤ c ∧ c ≤ '9') ∨ ('a' ≤ c ∧ c ≤ 'f') ∨ ('A' ≤ c ∧ c ≤ 'F')

def hexToLower (c : Char) : Char :=
  if 'A' ≤ c ∧ c ≤ 'F' then Char.ofNat (c.toNat + 32) else c

/-- Models `s.parse::<Uuid>()` on its two canonical textual forms
(hyphenated 8-4-4-4-12 and simple 32-hex-digit); hex digits are
case-insensitive, and the result is returned in the canonical lowercase
hyphenated rendering so that equal Uuid values compare equal. -/
def parseUuid (s : String) : Option String :=
  let cs := s.data
  let hex :=
    if cs.length = 36 then
      let groups := [cs.take 8, (cs.drop 9).take 4, (cs.drop 14).take 4,
        (cs.drop 19).take 4, cs.drop 24]
      if (cs.get? 8 = some '-') ∧ (cs.get? 13 = some '-') ∧
          (cs.get? 18 = some '-') ∧ (cs.get? 23 = some '-') ∧
          (groups.all (fun g => g.all isHexDigit)) then
        some (groups.flatten)
      else none
    else if cs.length = 32 ∧ cs.all isHexDigit then some cs
    else none
  hex.map (fun h =>
    let l := h.map hexToLower
    String.mk (l.take 8) ++ "-" ++ String.mk ((l.drop 8).take 4) ++ "-" ++
      String.mk ((l.drop 12).take 4) ++ "-" ++ String.mk ((l.drop 16).take 4) ++
      "-" ++ String.mk (l.drop 20))

/-! ## The verify endpoint (POST /api/v1/exports/verify) -/

/-- Row of the users table as consumed by verify_export
(queries::find_user_by_id). -/
structure User where
  id : String
  username : String
  display_name : Option String
  identity_key : List Nat
  deriving DecidableEq, Repr

/-- External collaborators of the three handlers: membership lookup,
permission aggregation (queries::is_server_member /
queries::get_member_permissions), the user directory, and Ed25519
signature verification.  `edVerify key msg sig` stands for
`VerifyingKey::from_bytes(key)` followed by `verify(msg, sig)`; both a
key that fails to parse and a failed verification yield `false`, which
is exactly how verify_export consumes the pair of calls. -/
structure Env where
  is_server_member : Nat → Nat → Bool
  get_member_permissions : Nat → Nat → Bool × Int
  findUserById : String → Option User
  edVerify : List Nat → String → List Nat → Bool

structure VerifyExportRequest where
  manifest : Json
  signature : String

structure VerifyExportSigner where
  user_id : String
  username : String
  display_name : Option String
  deriving DecidableEq, Repr

structure VerifyExportResponse where
  valid : Bool
  signer : Option VerifyExportSigner
  identity_key_matches : Bool
  deriving DecidableEq, Repr

/-- Extraction of `manifest.exported_by.user_id` (get / get / as_str /
parse::<Uuid>) performed at the top of verify_export. -/
def extractUserId (m : Json) : Option String :=
  ((m.get "exported_by").bind (fun v => v.get "user_id")).bind
    (fun v => v.asStr.bind parseUuid)

/-- Embeds `verify_export` (src/api/exports.rs, lines 57-131) composed
with the `Json` extractor: the raw wire manifest is first normalized by
serde deserialization (`Json.normalize`), then the handler body runs on
the resulting `serde_json::Value`. -/
def verify_export (env : Env) (req : VerifyExportRequest) :
    Except AppError VerifyExportResponse :=
  let manifest := req.manifest.normalize
  match extractUserId manifest with
  | none => .error (.Validation "manifest.exported_by.user_id is required")
  | some exported_by =>
    match base64Decode req.signature with
    | none => .error (.Validation "Invalid base64 signature")
    | some sig_bytes =>
      if sig_bytes.length ≠ 64 then
        .error (.Validation "Signature must be 64 bytes (Ed25519)")
      else
        match env.findUserById exported_by with
        | none => .error (.NotFound "Signer not found")
        | some user =>
          let signer : VerifyExportSigner :=
            { user_id := user.id, username := user.username,
              display_name := user.display_name }
          let canonical := manifest.serialize
          let valid :=
            if user.identity_key.length == 32 then
              env.edVerify user.identity_key canonical sig_bytes
            else false
          .ok { valid := valid, signer := some signer,
                identity_key_matches := valid }

/-! ## Timestamp parsing (chrono) -/

/-- UTC instant as stored by the importer: seconds relative to the Unix
epoch plus subsecond nanoseconds (chrono represents an inserted leap
second as the preceding second with nanosecond field >= 10^9). -/
structure Timestamp where
  secs : Int
  nanos : Nat
  deriving DecidableEq, Repr

def isLeapYear (y : Int) : Bool :=
  (y % 4 == 0 && y % 100 != 0) || y % 400 == 0

def daysInMonth (y : Int) (m : Nat) : Nat :=
  if m = 2 then (if isLeapYear y then 29 else 28)
  else if m = 4 ∨ m = 6 ∨ m = 9 ∨ m = 11 then 30
  else 31

/-- Days from the Unix epoch to the given civil date (Howard Hinnant's
civil-from-days algorithm, as used by calendar libraries). -/
def daysFromCivil (y : Int) (m d : Nat) : Int :=
  let y' : Int := if m ≤ 2 then y - 1 else y
  let era : Int := (if y' ≥ 0 then y' else y' - 399) / 400
  let yoe : Int := y' - era * 400
  let mp : Int := if m > 2 then (m : Int) - 3 else (m : Int) + 9
  let doy : Int := (153 * mp + 2) / 5 + (d : Int) - 1
  let doe : Int := yoe * 365 + yoe / 4 - yoe / 100 + doy
  era * 146097 + doe - 719468

def charDigit (c : Char) : Option Nat :=
  if '0' ≤ c ∧ c ≤ '9' then some (c.toNat - 48) else none

def digits2 (a b : Char) : Option Nat :=
  (charDigit a).bind (fun x => (charDigit b).map (fun y => x * 10 + y))

/-- Fractional-second tail: one or more digits after the decimal point;
the first nine digits become nanoseconds, any further digits are parsed
and discarded (chrono keeps at most nanosecond precision). -/
def parseFracDigits : List Char → Nat → Nat → Option (Nat × List Char)
  | cs, acc, n =>
    match cs with
    | c :: rest =>
      match charDigit c with
      | some d =>
        if n < 9 then parseFracDigits rest (acc * 10 + d) (n + 1)
        else parseFracDigits rest acc n
      | none => if n = 0 then none else some (acc * 10 ^ (9 - min n 9), cs)
    | [] => if n = 0 then none else some (acc * 10 ^ (9 - min n 9), [])

/-- Offset tail of an RFC 3339 timestamp: Z, z, or a signed HH:MM pair;
returns the offset in seconds and demands end of input. -/
def parseOffset : List Char → Option Int
  | ['Z'] => some 0
  | ['z'] => some 0
  | [sgn, h1, h2, ':', m1, m2] =>
    if sgn = '+' ∨ sgn = '-' then
      (digits2 h1 h2).bind (fun oh => (digits2 m1 m2).bind (fun om =>
        if oh ≤ 23 ∧ om ≤ 59 then
          let total : Int := (oh : Int) * 3600 + (om : Int) * 60
          some (if sgn = '-' then -total else total)
        else none))
    else none
  | _ => none

/-- Models `DateTime::parse_from_rfc3339` followed by
`with_timezone(&Utc)`: full-date "T" (or "t" or space) full-time, with
an optional fractional-second part and a mandatory numerical or Z/z
offset, field ranges validated against the civil calendar, a seconds
field of 60 accepted as a leap second, and the result normalized to
UTC. -/
def parseRfc3339 (s : String) : Option Timestamp :=
  match s.data with
  | y1 :: y2 :: y3 :: y4 :: '-' :: m1 :: m2 :: '-' :: d1 :: d2 :: sep ::
      h1 :: h2 :: ':' :: mi1 :: mi2 :: ':' :: s1 :: s2 :: rest =>
    if sep = 'T' ∨ sep = 't' ∨ sep = ' ' then
      (digits2 y1 y2).bind (fun yhi => (digits2 y3 y4).bind (fun ylo =>
      (digits2 m1 m2).bind (fun mo => (digits2 d1 d2).bind (fun dy =>
      (digits2 h1 h2).bind (fun hh => (digits2 mi1 mi2).bind (fun mi =>
      (digits2 s1 s2).bind (fun ss =>
        let y : Int := (yhi : Int) * 100 + (ylo : Int)
        if 1 ≤ mo ∧ mo ≤ 12 ∧ 1 ≤ dy ∧ dy ≤ daysInMonth y mo ∧
            hh ≤ 23 ∧ mi ≤ 59 ∧ ss ≤ 60 then
          let fracRest : Option (Nat × List Char) :=
            match rest with
            | '.' :: cs => (parseFracDigits cs 0 0)
            | _ => some (0, rest)
          fracRest.bind (fun fr =>
            (parseOffset fr.2).map (fun off =>
              let sec : Nat := if ss = 60 then 59 else ss
              let leap : Nat := if ss = 60 then 1000000000 else 0
              { secs := daysFromCivil y mo dy * 86400 + (hh : Int) * 3600 +
                  (mi : Int) * 60 + (sec : Int) - off,
                nanos := fr.1 + leap }))
        else none)))))))
    else none
  | _ => none

/-- Models the fallback branch
`DateTime::parse_from_str(s, "%Y-%m-%dT%H:%M:%S%.fZ")`.  The format
string contains no offset item (the trailing Z is a literal character
match), and `DateTime::<FixedOffset>::parse_from_str` can only build a
value when the parsed fields include an offset, so this call returns
`Err(NOT_ENOUGH)` for every input: the branch never succeeds. -/
def parseFallback (_s : String) : Option Timestamp := none

/-- The importer's timestamp parse:
`parse_from_rfc3339(..).or_else(|_| parse_from_str(.., fallback))`
normalized to UTC. -/
def parseTimestamp (s : String) : Option Timestamp :=
  (parseRfc3339 s).orElse (fun _ => parseFallback s)

/-! ## Live database state

Rows of the tables touched by restore_server / import_messages.  Fresh
row identifiers (Uuid::new_v4 / database-generated ids) are modelled as
a deterministic supply drawn from `DbState.nextId`; only freshness
matters to the handlers. -/

structure ServerRow where
  id : Nat
  system_channel_id : Option Nat
  deriving DecidableEq, Repr

structure CategoryRow where
  id : Nat
  server_id : Nat
  name : String
  position : Int
  deriving DecidableEq, Repr

structure ChannelRow where
  id : Nat
  server_id : Option Nat
  encrypted_meta : String
  channel_type : String
  position : Int
  category_id : Option Nat
  is_private : Bool
  encrypted : Bool
  deriving DecidableEq, Repr

structure RoleRow where
  id : Nat
  server_id : Nat
  name : String
  color : Option String
  permissions : Int
  position : Int
  is_default : Bool
  deriving DecidableEq, Repr

structure OverwriteRow where
  channel_id : Nat
  target_type : String
  target_id : Nat
  allow : Int
  deny : Int
  deriving DecidableEq, Repr

structure MessageRow where
  id : Nat
  channel_id : Nat
  sender_token : List Nat
  encrypted_body : List Nat
  timestamp : Timestamp
  has_attachments : Bool
  sender_id : Option String
  reply_to_id : Option String
  message_type : String
  deriving DecidableEq, Repr

/-- Row of a table that references a message (attachments, reactions,
reports). -/
structure LinkedRow where
  id : Nat
  message_id : Nat
  deriving DecidableEq, Repr

structure DbState where
  nextId : Nat
  servers : List ServerRow
  categories : List CategoryRow
  channels : List ChannelRow
  channelMembers : List (Nat × Nat)
  roles : List RoleRow
  memberRoles : List (Nat × Nat)
  overwrites : List OverwriteRow
  messages : List MessageRow
  attachments : List LinkedRow
  reactions : List LinkedRow
  reports : List LinkedRow
  deriving DecidableEq, Repr

/-- Modelled from the spec: the permission-bit encoding is an external
collaborator consumed as an opaque `hasPermission(bitmask, flag)`
predicate (crate::permissions is not part of the covered sources); the
flag's numeric value is irrelevant to this core. -/
def MANAGE_SERVER : Int := 16

/-- Modelled from the spec: `hasPermission(bitmask, flag) -> bool`,
a bitwise test that every bit of the flag is present in the bitmask. -/
def has_permission (perms flag : Int) : Bool :=
  perms.land flag == flag

/-! ## Backup (request) records

The request shapes live in crate::models (not among the covered
sources); the field lists below are modelled from the spec's data model
(section 3) and cross-checked against every use the handlers make of
them.  In particular `channel_type` and `target_type` are plain strings:
restore_server compares them against string literals and binds them
through to the store as-is. -/

structure BackupServerInfo where
  name : String
  deriving DecidableEq, Repr

structure BackupCategory where
  id : String
  name : String
  position : Int
  deriving DecidableEq, Repr

structure BackupChannel where
  id : String
  name : String
  channel_type : String
  position : Int
  category_id : Option String
  is_private : Bool
  deriving DecidableEq, Repr

structure BackupRole where
  id : String
  name : String
  color : Option String
  permissions : Int
  position : Int
  is_default : Bool
  deriving DecidableEq, Repr

structure BackupOverwrite where
  channel_id : String
  target_type : String
  target_id : String
  allow : Int
  deny : Int
  deriving DecidableEq, Repr

structure RestoreServerRequest where
  server : BackupServerInfo
  categories : List BackupCategory
  channels : List BackupChannel
  roles : List BackupRole
  permission_overwrites : List BackupOverwrite
  deriving DecidableEq, Repr

structure RestoreServerResponse where
  categories_created : Nat
  channels_created : Nat
  roles_created : Nat
  roles_updated : Nat
  overwrites_applied : Nat
  channel_id_map : List (String × String)
  deriving DecidableEq, Repr

/-- Lookup in an identifier map.  The maps are built by consing, so the
first hit is the most recent insertion — HashMap::insert / get
semantics. -/
def assocLookup (l : List (String × Nat)) (k : String) : Option Nat :=
  (l.find? (fun p => p.1 == k)).map (fun p => p.2)

/-! ## restore_server (POST /api/v1/servers/:server_id/restore) -/

/-- Wipe phase of restore_server (lines 217-276): delete attachments,
reactions and reports of messages in the server's channels, null the
server's system_channel_id, delete the server's channels (cascading to
messages, channel members and channel permission overwrites), delete
its categories, and delete its non-default roles (cascading to
member_roles).  read_states, pinned_messages and
sender_key_distributions are not modelled — nothing in the claims
observes them. -/
def wipeServer (server_id : Nat) (st : DbState) : DbState :=
  let chIds := (st.channels.filter (fun c => c.server_id == some server_id)).map
    (fun c => c.id)
  let msgIds := (st.messages.filter (fun m => chIds.contains m.channel_id)).map
    (fun m => m.id)
  let deadRoleIds := (st.roles.filter
    (fun r => r.server_id == server_id && !r.is_default)).map (fun r => r.id)
  { st with
    attachments := st.attachments.filter (fun a => !msgIds.contains a.message_id),
    reactions := st.reactions.filter (fun a => !msgIds.contains a.message_id),
    reports := st.reports.filter (fun a => !msgIds.contains a.message_id),
    servers := st.servers.map (fun s =>
      if s.id == server_id then { s with system_channel_id := none } else s),
    channels := st.channels.filter (fun c => !(c.server_id == some server_id)),
    messages := st.messages.filter (fun m => !chIds.contains m.channel_id),
    channelMembers := st.channelMembers.filter (fun cm => !chIds.contains cm.1),
    overwrites := st.overwrites.filter (fun o => !chIds.contains o.channel_id),
    categories := st.categories.filter (fun c => !(c.server_id == server_id)),
    roles := st.roles.filter (fun r => !(r.server_id == server_id && !r.is_default)),
    memberRoles := st.memberRoles.filter (fun mr => !deadRoleIds.contains mr.1) }

/-- Step 1 of restore_server (lines 289-303): create one category per
backup category, recording old id -> new id. -/
def createCategories (server_id : Nat) :
    List BackupCategory → DbState → List (String × Nat) → Nat →
      DbState × List (String × Nat) × Nat
  | [], st, m, n => (st, m, n)
  | cat :: rest, st, m, n =>
    let cid := st.nextId
    let st' := { st with
      nextId := cid + 1,
      categories := st.categories ++
        [{ id := cid, server_id := server_id, name := cat.name,
           position := cat.position }] }
    createCategories server_id rest st' ((cat.id, cid) :: m) (n + 1)

/-- The channel row inserted for one backup channel (lines 319-333):
fresh id, the backup's name as encrypted_meta bytes, its type, position
and privacy flag, the category reference resolved through the category
map (unresolved or absent means no category), encrypted = false. -/
def buildChannelRow (server_id : Nat) (catMap : List (String × Nat)) (id : Nat)
    (ch : BackupChannel) : ChannelRow :=
  { id := id, server_id := some server_id, encrypted_meta := ch.name,
    channel_type := ch.channel_type, position := ch.position,
    category_id := ch.category_id.bind (fun old => assocLookup catMap old),
    is_private := ch.is_private, encrypted := false }

/-- Step 2 of restore_server (lines 305-349): skip dm / group_dm
channels, insert a row for every other backup channel, add the restoring
user as a channel member (ON CONFLICT DO NOTHING), record the id
mapping. -/
def createChannels (server_id user_id : Nat) (catMap : List (String × Nat)) :
    List BackupChannel → DbState → List (String × Nat) → Nat →
      DbState × List (String × Nat) × Nat
  | [], st, m, n => (st, m, n)
  | ch :: rest, st, m, n =>
    if ch.channel_type == "dm" || ch.channel_type == "group_dm" then
      createChannels server_id user_id catMap rest st m n
    else
      let cid := st.nextId
      let st' := { st with
        nextId := cid + 1,
        channels := st.channels ++ [buildChannelRow server_id catMap cid ch],
        channelMembers :=
          if st.channelMembers.contains (cid, user_id) then st.channelMembers
          else st.channelMembers ++ [(cid, user_id)] }
      createChannels server_id user_id catMap rest st' ((ch.id, cid) :: m) (n + 1)

/-- UPDATE roles SET permissions = $1 WHERE id = $2. -/
def updatePermsById (rid : Nat) (perms : Int) (roles : List RoleRow) :
    List RoleRow :=
  roles.map (fun r => if r.id == rid then { r with permissions := perms } else r)

/-- Step 3 of restore_server (lines 351-389): a backup role marked
default updates the live default role's permissions in place when one
exists (and is silently skipped otherwise); any other backup role is
created as a fresh non-default role.  `existing_everyone` is the single
SELECT issued before the loop. -/
def applyRoles (server_id : Nat) (existing_everyone : Option RoleRow) :
    List BackupRole → DbState → List (String × Nat) → Nat → Nat →
      DbState × List (String × Nat) × Nat × Nat
  | [], st, m, created, updated => (st, m, created, updated)
  | role :: rest, st, m, created, updated =>
    if role.is_default then
      match existing_everyone with
      | some ev =>
        let st' := { st with roles := updatePermsById ev.id role.permissions st.roles }
        applyRoles server_id existing_everyone rest st' ((role.id, ev.id) :: m)
          created (updated + 1)
      | none => applyRoles server_id existing_everyone rest st m created updated
    else
      let rid := st.nextId
      let st' := { st with
        nextId := rid + 1,
        roles := st.roles ++
          [{ id := rid, server_id := server_id, name := role.name,
             color := role.color, permissions := role.permissions,
             position := role.position, is_default := false }] }
      applyRoles server_id existing_everyone rest st' ((role.id, rid) :: m)
        (created + 1) updated

/-- INSERT .. ON CONFLICT (channel_id, target_type, target_id) DO UPDATE
SET allow_bits, deny_bits. -/
def upsertOverwrite (cid : Nat) (ttype : String) (tid : Nat) (allow deny : Int)
    (l : List OverwriteRow) : List OverwriteRow :=
  if l.any (fun o => o.channel_id == cid && o.target_type == ttype &&
      o.target_id == tid) then
    l.map (fun o =>
      if o.channel_id == cid && o.target_type == ttype && o.target_id == tid then
        { o with allow := allow, deny := deny }
      else o)
  else l ++ [{ channel_id := cid, target_type := ttype, target_id := tid,
               allow := allow, deny := deny }]

/-- Step 4 of restore_server (lines 391-423): skip overwrites whose
target_type is the string "member"; resolve the channel and the target
through the identifier maps, skipping silently when either is missing;
upsert the surviving overwrites, carrying the request's target_type
through unchanged. -/
def applyOverwrites (chMap roleMap : List (String × Nat)) :
    List BackupOverwrite → DbState → Nat → DbState × Nat
  | [], st, n => (st, n)
  | ow :: rest, st, n =>
    if ow.target_type == "member" then applyOverwrites chMap roleMap rest st n
    else
      match assocLookup chMap ow.channel_id with
      | none => applyOverwrites chMap roleMap rest st n
      | some cid =>
        match assocLookup roleMap ow.target_id with
        | none => applyOverwrites chMap roleMap rest st n
        | some tid =>
          let st' := { st with
            overwrites :=
              upsertOverwrite cid ow.target_type tid ow.allow ow.deny st.overwrites }
          applyOverwrites chMap roleMap rest st' (n + 1)

/-- Embeds `restore_server` (src/api/exports.rs, lines 178-468).
Membership and permission failures reject with Forbidden, the structural
caps with Validation, all before the transaction; the transactional body
(wipe, categories, channels, roles, overwrites) then commits.  An error
result carries the unchanged input state.  The post-commit audit write
and websocket broadcast are best-effort external effects with no bearing
on the response or the modelled state. -/
def restore_server (env : Env) (st : DbState) (user_id server_id : Nat)
    (req : RestoreServerRequest) :
    Except AppError RestoreServerResponse × DbState :=
  if !(env.is_server_member server_id user_id) then
    (.error (.Forbidden "Not a member of this server"), st)
  else
    let p := env.get_member_permissions server_id user_id
    if !p.1 && !(has_permission p.2 MANAGE_SERVER) then
      (.error (.Forbidden "Missing MANAGE_SERVER permission"), st)
    else if req.categories.length > 50 then
      (.error (.Validation "Too many categories (max 50)"), st)
    else if req.channels.length > 500 then
      (.error (.Validation "Too many channels (max 500)"), st)
    else if req.roles.length > 250 then
      (.error (.Validation "Too many roles (max 250)"), st)
    else
      let st1 := wipeServer server_id st
      let c := createCategories server_id req.categories st1 [] 0
      let ch := createChannels server_id user_id c.2.1 req.channels c.1 [] 0
      let existing_everyone := ch.1.roles.find?
        (fun r => r.server_id == server_id && r.is_default)
      let ro := applyRoles server_id existing_everyone req.roles ch.1 [] 0 0
      let ov := applyOverwrites ch.2.1 ro.2.1 req.permission_overwrites ro.1 0
      (.ok { categories_created := c.2.2, channels_created := ch.2.2,
             roles_created := ro.2.2.1, roles_updated := ro.2.2.2,
             overwrites_applied := ov.2,
             channel_id_map := ch.2.1.map (fun p => (p.1, toString p.2)) },
       ov.1)

/-! ## import_messages (POST /api/v1/channels/:channel_id/import-messages) -/

/-- One record of the import request (crate::models, modelled from the
spec's MessageRecord and the handler's field accesses). -/
structure ImportMessage where
  sender_token : String
  encrypted_body : String
  timestamp : String
  has_attachments : Bool
  sender_id : Option String
  reply_to_id : Option String
  message_type : String
  deriving DecidableEq, Repr

structure ImportMessagesRequest where
  messages : List ImportMessage
  deriving DecidableEq, Repr

structure ImportMessagesResponse where
  imported : Nat
  deriving DecidableEq, Repr

/-- Per-record processing of import_messages (lines 509-556): decode the
two base64 fields, parse the timestamp, parse the optional sender and
reply references (an unparseable value degrades to absent), and build
the row to insert under a fresh message id. -/
def importRow (channel_id : Nat) (fresh : Nat) (msg : ImportMessage) :
    Except AppError MessageRow :=
  match base64Decode msg.sender_token with
  | none => .error (.Validation "Invalid base64 sender_token")
  | some tok =>
    match base64Decode msg.encrypted_body with
    | none => .error (.Validation "Invalid base64 encrypted_body")
    | some body =>
      match parseTimestamp msg.timestamp with
      | none => .error (.Validation ("Invalid timestamp: " ++ msg.timestamp))
      | some ts =>
        .ok { id := fresh, channel_id := channel_id, sender_token := tok,
              encrypted_body := body, timestamp := ts,
              has_attachments := msg.has_attachments,
              sender_id := msg.sender_id.bind (fun s => parseUuid s),
              reply_to_id := msg.reply_to_id.bind (fun s => parseUuid s),
              message_type := msg.message_type }

/-- The loop body of import_messages inside its transaction: the rows
inserted for a batch, or the first per-record error (which aborts the
transaction). -/
def buildRows (channel_id : Nat) :
    Nat → List ImportMessage → Except AppError (List MessageRow)
  | _, [] => .ok []
  | fresh, msg :: rest =>
    match importRow channel_id fresh msg with
    | .error e => .error e
    | .ok row => (buildRows channel_id (fresh + 1) rest).map (fun rs => row :: rs)

/-- Embeds `import_messages` (src/api/exports.rs, lines 474-564): batch
size cap first, then channel lookup, the DM guard, the MANAGE_SERVER
check, then one transaction inserting every record; any record error
rolls the whole batch back (the error result carries the unchanged input
state). -/
def import_messages (env : Env) (st : DbState) (user_id channel_id : Nat)
    (req : ImportMessagesRequest) :
    Except AppError ImportMessagesResponse × DbState :=
  if req.messages.length > 200 then
    (.error (.Validation "Too many messages per batch (max 200)"), st)
  else
    match st.channels.find? (fun c => c.id == channel_id) with
    | none => (.error (.NotFound "Channel not found"), st)
    | some channel =>
      match channel.server_id with
      | none => (.error (.Validation "Cannot import messages to DM channel"), st)
      | some server_id =>
        let p := env.get_member_permissions server_id user_id
        if !p.1 && !(has_permission p.2 MANAGE_SERVER) then
          (.error (.Forbidden "Missing MANAGE_SERVER permission"), st)
        else
          match buildRows channel_id st.nextId req.messages with
          | .error e => (.error e, st)
          | .ok rows =>
            (.ok { imported := rows.length },
             { st with nextId := st.nextId + rows.length,
                       messages := st.messages ++ rows })

/-- Authorization succeeding: the caller is the owner or holds
MANAGE_SERVER, so the `!is_owner && !has_permission(..)` rejection does
not fire. -/
def authOk (env : Env) (server_id user_id : Nat) : Prop :=
  (env.get_member_permissions server_id user_id).1 = true ∨
    has_permission (env.get_member_permissions server_id user_id).2 MANAGE_SERVER = true

/-- The channel rows inserted by step 2 for a given backup channel list,
category map and starting fresh id. -/
def channelRows (server_id : Nat) (catMap : List (String × Nat)) :
    List BackupChannel → Nat → List ChannelRow
  | [], _ => []
  | ch :: rest, next =>
    if ch.channel_type == "dm" || ch.channel_type == "group_dm" then
      channelRows server_id catMap rest next
    else
      buildChannelRow server_id catMap next ch ::
        channelRows server_id catMap rest (next + 1)

/-- A live default role exists for the server. -/
def hasLiveDefault (st : DbState) (sid : Nat) : Bool :=
  st.roles.any (fun r => r.server_id == sid && r.is_default)

/-- Strict key order on object entries. -/
def ltKeys (a b : String × Json) : Prop := a.1 < b.1

instance : IsAntisymm (String × Json) ltKeys :=
  ⟨fun _ _ h1 h2 => absurd (lt_trans h1 h2) (lt_irrefl _)⟩

/-! ## Concrete inputs used by the witnesses and the counterexample -/

/-- Signer whose registered identity key is 3 bytes long (an identity
key stored for another purpose). -/
def userW : User :=
  { id := "00000000-0000-0000-0000-000000000000", username := "alice",
    display_name := none, identity_key := [1, 2, 3] }

/-- Signer with a well-formed 32-byte verification key. -/
def userW32 : User :=
  { id := "00000000-0000-0000-0000-000000000000", username := "bob",
    display_name := some "Bob", identity_key := List.replicate 32 7 }

/-- Environment where the caller is a member and the owner, the
directory knows `userW`, and the Ed25519 oracle accepts. -/
def envW : Env :=
  { is_server_member := fun _ _ => true,
    get_member_permissions := fun _ _ => (true, 0),
    findUserById := fun s =>
      if s == "00000000-0000-0000-0000-000000000000" then some userW else none,
    edVerify := fun _ _ _ => true }

/-- Same as `envW` but the directory returns the 32-byte-key signer. -/
def envW32 : Env :=
  { is_server_member := fun _ _ => true,
    get_member_permissions := fun _ _ => (true, 0),
    findUserById := fun s =>
      if s == "00000000-0000-0000-0000-000000000000" then some userW32 else none,
    edVerify := fun _ _ _ => true }

/-- Channel 5 of server 1, used by the import witnesses. -/
def chW : ChannelRow :=
  { id := 5, server_id := some 1, encrypted_meta := "general",
    channel_type := "text", position := 0, category_id := none,
    is_private := false, encrypted := false }

/-- A small live database: server 1 with one text channel and one
default role. -/
def stW : DbState :=
  { nextId := 100, servers := [{ id := 1, system_channel_id := none }],
    categories := [], channels := [chW], channelMembers := [],
    roles := [{ id := 7, server_id := 1, name := "everyone", color := none,
                permissions := 3, position := 0, is_default := true }],
    memberRoles := [], overwrites := [], messages := [],
    attachments := [], reactions := [], reports := [] }

/-- An import record every field of which decodes and parses. -/
def msgOk : ImportMessage :=
  { sender_token := "", encrypted_body := "", timestamp := "2024-01-02T03:04:05Z",
    has_attachments := false, sender_id := none, reply_to_id := none,
    message_type := "default" }

/-- An import record whose timestamp parses under neither format. -/
def msgBad : ImportMessage :=
  { msgOk with timestamp := "bad" }

def reqW5 : ImportMessagesRequest := { messages := [msgBad] }

def req200 : ImportMessagesRequest := { messages := List.replicate 200 msgOk }

def req201 : ImportMessagesRequest := { messages := List.replicate 201 msgOk }

/-- Restore request carrying an overwrite whose target_type is the
string "x" (neither "role" nor "member") with resolvable references. -/
def reqX : RestoreServerRequest :=
  { server := { name := "S" },
    categories := [],
    channels := [{ id := "c1", name := "general", channel_type := "text",
                   position := 0, category_id := none, is_private := false }],
    roles := [{ id := "r1", name := "mods", color := none, permissions := 7,
                position := 1, is_default := false }],
    permission_overwrites := [{ channel_id := "c1", target_type := "x",
                                target_id := "r1", allow := 1, deny := 2 }] }

/-- Restore request with one default and one custom role. -/
def reqW3 : RestoreServerRequest :=
  { server := { name := "S" },
    categories := [], channels := [],
    roles := [{ id := "r0", name := "everyone", color := none, permissions := 5,
                position := 0, is_default := true },
              { id := "r1", name := "mods", color := none, permissions := 7,
                position := 1, is_default := false }],
    permission_overwrites := [] }

def roleW : BackupRole :=
  { id := "r", name := "r", color := none, permissions := 0, position := 0,
    is_default := false }

/-- Restore request with 251 roles, one more than the cap. -/
def reqW4 : RestoreServerRequest :=
  { server := { name := "S" },
    categories := [], channels := [],
    roles := List.replicate 251 roleW,
    permission_overwrites := [] }

/-- Backup channel whose category reference resolves to nothing. -/
def chW9 : BackupChannel :=
  { id := "c1", name := "general", channel_type := "text", position := 0,
    category_id := some "nope", is_private := false }

def reqW9 : RestoreServerRequest :=
  { server := { name := "S" },
    categories := [{ id := "catA", name := "A", position := 0 }],
    channels := [chW9],
    roles := [],
    permission_overwrites := [] }

/-- Two manifests with identical logical content and opposite key
order. -/
def mA : Json := .obj (.cons "b" (.num 2) (.cons "a" (.str "x") .nil))

def mB : Json := .obj (.cons "a" (.str "x") (.cons "b" (.num 2) .nil))

/-- Manifest carrying only the exporter identity. -/
def mC8 : Json :=
  .obj (.cons "exported_by"
    (.obj (.cons "user_id" (.str "00000000-0000-0000-0000-000000000000") .nil)) .nil)

/-- Base64 string decoding to 64 zero bytes. -/
def sig64 : String := String.mk (List.replicate 86 'A') ++ "=="

/-- Response of verify_export on `mC8`/`sig64` under `envW32`. -/
def respW32 : VerifyExportResponse :=
  { valid := true,
    signer := some { user_id := userW32.id, username := userW32.username,
                     display_name := userW32.display_name },
    identity_key_matches := true }

/-! ## Lemmas and claim theorems -/

lemma authOk_cond {env : Env} {sid uid : Nat} (h : authOk env sid uid) :
    (!(env.get_member_permissions sid uid).1 &&
      !(has_permission (env.get_member_permissions sid uid).2 MANAGE_SERVER)) = false := by
  rcases h with h | h <;> simp [h]

/-- C4: for an authorized restore request, exceeding any structural cap
(more than 50 categories, 500 channels or 250 roles) fails with a
ValidationError and leaves the state unchanged, while counts at or below
every cap pass validation and the restore succeeds. -/
theorem c4_restore_caps (env : Env) (st : DbState) (uid sid : Nat)
    (req : RestoreServerRequest)
    (hm : env.is_server_member sid uid = true) (hp : authOk env sid uid) :
    ((50 < req.categories.length ∨ 500 < req.channels.length ∨
        250 < req.roles.length) →
      ∃ m, restore_server env st uid sid req = (.error (.Validation m), st))
    ∧ (req.categories.length ≤ 50 → req.channels.length ≤ 500 →
        req.roles.length ≤ 250 →
      ∃ resp st', restore_server env st uid sid req = (.ok resp, st')) := by
  constructor
  · intro hover
    unfold restore_server
    simp only [hm, Bool.not_true, Bool.false_eq_true, if_false, authOk_cond hp]
    by_cases h1 : 50 < req.categories.length
    · simp only [h1, if_true]
      exact ⟨_, rfl⟩
    · by_cases h2 : 500 < req.channels.length
      · simp only [h1, h2, if_false, if_true]
        exact ⟨_, rfl⟩
      · have h3 : 250 < req.roles.length := by omega
        simp only [h1, h2, h3, if_false, if_true]
        exact ⟨_, rfl⟩
  · intro h1 h2 h3
    unfold restore_server
    simp only [hm, Bool.not_true, Bool.false_eq_true, if_false, authOk_cond hp]
    simp only [Nat.not_lt.mpr h1, Nat.not_lt.mpr h2, Nat.not_lt.mpr h3, if_false]
    exact ⟨_, _, rfl⟩

lemma importRow_validation (channel_id fresh : Nat) (msg : ImportMessage) :
    (∃ row, importRow channel_id fresh msg = .ok row) ∨
      (∃ s, importRow channel_id fresh msg = .error (.Validation s)) := by
  unfold importRow
  cases base64Decode msg.sender_token with
  | none => exact .inr ⟨_, rfl⟩
  | some tok =>
    cases base64Decode msg.encrypted_body with
    | none => exact .inr ⟨_, rfl⟩
    | some body =>
      cases parseTimestamp msg.timestamp with
      | none => exact .inr ⟨_, rfl⟩
      | some ts => exact .inl ⟨_, rfl⟩

lemma importRow_bad_timestamp (channel_id fresh : Nat) (msg : ImportMessage)
    (h : parseTimestamp msg.timestamp = none) :
    ∃ s, importRow channel_id fresh msg = .error (.Validation s) := by
  unfold importRow
  cases base64Decode msg.sender_token with
  | none => exact ⟨_, rfl⟩
  | some tok =>
    cases base64Decode msg.encrypted_body with
    | none => exact ⟨_, rfl⟩
    | some body => rw [h]; exact ⟨_, rfl⟩

lemma buildRows_bad (channel_id : Nat) :
    ∀ (msgs : List ImportMessage) (fresh : Nat),
      (∃ m ∈ msgs, parseTimestamp m.timestamp = none) →
      ∃ s, buildRows channel_id fresh msgs = .error (.Validation s) := by
  intro msgs
  induction msgs with
  | nil => intro fresh h; rcases h with ⟨m, hm, _⟩; cases hm
  | cons m0 rest ih =>
    intro fresh h
    rcases h with ⟨m, hm, hbad⟩
    rcases List.mem_cons.mp hm with rfl | hmem
    · rcases importRow_bad_timestamp channel_id fresh m hbad with ⟨s, hs⟩
      exact ⟨s, by unfold buildRows; rw [hs]⟩
    · rcases importRow_validation channel_id fresh m0 with ⟨row, hrow⟩ | ⟨s, hs⟩
      · rcases ih (fresh + 1) ⟨m, hmem, hbad⟩ with ⟨s, hs⟩
        exact ⟨s, by unfold buildRows; rw [hrow, hs]; rfl⟩
      · exact ⟨s, by unfold buildRows; rw [hs]⟩

/-- C5: an import batch that passes the size, channel and permission
checks but contains at least one record whose timestamp parses under
neither accepted format returns a ValidationError and inserts nothing:
the returned state is the unchanged input state (full rollback). -/
theorem c5_import_bad_timestamp (env : Env) (st : DbState) (uid cid : Nat)
    (req : ImportMessagesRequest) (ch : ChannelRow) (sid : Nat)
    (hlen : req.messages.length ≤ 200)
    (hch : st.channels.find? (fun c => c.id == cid) = some ch)
    (hsrv : ch.server_id = some sid)
    (hp : authOk env sid uid)
    (hbad : ∃ m ∈ req.messages, parseTimestamp m.timestamp = none) :
    ∃ s, import_messages env st uid cid req = (.error (.Validation s), st) := by
  rcases buildRows_bad cid req.messages st.nextId hbad with ⟨s, hs⟩
  refine ⟨s, ?_⟩
  unfold import_messages
  rw [hch]
  simp only [Nat.not_lt.mpr hlen, if_false, hsrv, authOk_cond hp, Bool.false_eq_true, hs]

lemma buildRows_ok_length (channel_id : Nat) :
    ∀ (msgs : List ImportMessage) (fresh : Nat) (rows : List MessageRow),
      buildRows channel_id fresh msgs = .ok rows → rows.length = msgs.length := by
  intro msgs
  induction msgs with
  | nil => intro fresh rows h; unfold buildRows at h; cases h; rfl
  | cons m0 rest ih =>
    intro fresh rows h
    unfold buildRows at h
    cases hrow : importRow channel_id fresh m0 with
    | error e => rw [hrow] at h; cases h
    | ok row =>
      rw [hrow] at h
      cases hrest : buildRows channel_id (fresh + 1) rest with
      | error e => rw [hrest] at h; cases h
      | ok rs =>
        rw [hrest] at h
        cases h
        simp [ih (fresh + 1) rs hrest]

/-- C6: a batch of exactly 200 records passes the batch-size validation
and succeeds when the other preconditions hold (with imported = 200),
while a batch of 201 or more records fails with ValidationError before
anything else and performs no insert. -/
theorem c6_import_batch_size (env : Env) (st : DbState) (uid cid : Nat)
    (req : ImportMessagesRequest) (ch : ChannelRow) (sid : Nat) :
    (req.messages.length = 200 →
      st.channels.find? (fun c => c.id == cid) = some ch →
      ch.server_id = some sid → authOk env sid uid →
      (buildRows cid st.nextId req.messages).isOk = true →
      ∃ st', import_messages env st uid cid req = (.ok { imported := 200 }, st'))
    ∧ (200 < req.messages.length →
      import_messages env st uid cid req =
        (.error (.Validation "Too many messages per batch (max 200)"), st)) := by
  constructor
  · intro hlen hch hsrv hp hok
    cases hrows : buildRows cid st.nextId req.messages with
    | error e => rw [hrows] at hok; cases hok
    | ok rows =>
      have hl : rows.length = 200 := by
        rw [buildRows_ok_length cid req.messages st.nextId rows hrows, hlen]
      unfold import_messages
      rw [hch]
      simp only [hlen, Nat.lt_irrefl, if_false, hsrv, authOk_cond hp,
        Bool.false_eq_true, hrows, hl]
      exact ⟨_, rfl⟩
  · intro hlen
    unfold import_messages
    simp only [hlen, if_true]

/-- C7: when the request signature decodes to a byte string whose length
is not 64, verify_export fails with a ValidationError, and the result is
the same for every environment — in particular it does not depend on the
Ed25519 verifier or the user directory, so cryptographic verification is
never reached. -/
theorem c7_sig_length (req : VerifyExportRequest) (bs : List Nat)
    (hdec : base64Decode req.signature = some bs) (hlen : bs.length ≠ 64) :
    ∃ m, ∀ env : Env, verify_export env req = .error (.Validation m) := by
  cases hext : extractUserId req.manifest.normalize with
  | none =>
    refine ⟨"manifest.exported_by.user_id is required", fun env => ?_⟩
    unfold verify_export
    simp only []
    rw [hext]
  | some uid =>
    refine ⟨"Signature must be 64 bytes (Ed25519)", fun env => ?_⟩
    unfold verify_export
    simp only []
    rw [hext, hdec]
    dsimp only
    rw [if_pos hlen]

/-- C8: when the signer resolves but the registered identity key is not
exactly 32 bytes, verify_export completes without error and returns
valid = false (with the signer still reported). -/
theorem c8_key_length (env : Env) (req : VerifyExportRequest) (uidStr : String)
    (user : User) (bs : List Nat)
    (hext : extractUserId req.manifest.normalize = some uidStr)
    (hdec : base64Decode req.signature = some bs) (hlen : bs.length = 64)
    (huser : env.findUserById uidStr = some user)
    (hkey : user.identity_key.length ≠ 32) :
    verify_export env req =
      .ok { valid := false,
            signer := some { user_id := user.id, username := user.username,
                             display_name := user.display_name },
            identity_key_matches := false } := by
  have hne : ¬(bs.length ≠ 64) := fun hc => hc hlen
  have hkey32 : (user.identity_key.length == 32) = false := by
    simp [hkey]
  unfold verify_export
  simp only []
  rw [hext, hdec]
  dsimp only
  rw [if_neg hne, huser]
  dsimp only
  rw [hkey32]
  rfl

/-- C10: every verify_export call that completes without error returns a
response that carries the signer and whose identity_key_matches field
equals its valid field. -/
theorem c10_signer_and_key_matches (env : Env) (req : VerifyExportRequest)
    (resp : VerifyExportResponse)
    (h : verify_export env req = .ok resp) :
    resp.signer.isSome = true ∧ resp.identity_key_matches = resp.valid := by
  unfold verify_export at h
  simp only [] at h
  cases hext : extractUserId req.manifest.normalize with
  | none => rw [hext] at h; cases h
  | some uid =>
    rw [hext] at h
    cases hdec : base64Decode req.signature with
    | none => rw [hdec] at h; cases h
    | some bs =>
      rw [hdec] at h
      dsimp only at h
      by_cases hlen : bs.length = 64
      · have hne : ¬(bs.length ≠ 64) := fun hc => hc hlen
        rw [if_neg hne] at h
        cases huser : env.findUserById uid with
        | none => rw [huser] at h; cases h
        | some user =>
          rw [huser] at h
          cases h
          exact ⟨rfl, rfl⟩
      · rw [if_pos hlen] at h
        cases h

lemma createCategories_frame (sid : Nat) :
    ∀ (cats : List BackupCategory) (st : DbState) (m : List (String × Nat)) (n : Nat),
      (createCategories sid cats st m n).1.channels = st.channels ∧
      (createCategories sid cats st m n).1.roles = st.roles ∧
      (createCategories sid cats st m n).1.overwrites = st.overwrites := by
  intro cats
  induction cats with
  | nil => intro st m n; exact ⟨rfl, rfl, rfl⟩
  | cons c rest ih =>
    intro st m n
    unfold createCategories
    exact ih _ _ _

lemma createCategories_lookup_none (sid : Nat) :
    ∀ (cats : List BackupCategory) (st : DbState) (m : List (String × Nat)) (n : Nat)
      (k : String), k ∉ cats.map (fun c => c.id) → assocLookup m k = none →
      assocLookup (createCategories sid cats st m n).2.1 k = none := by
  intro cats
  induction cats with
  | nil => intro st m n k _ hm; exact hm
  | cons c rest ih =>
    intro st m n k hk hm
    unfold createCategories
    apply ih
    · intro hmem; exact hk (List.mem_cons_of_mem _ hmem)
    · have hne2 : ((c.id : String) == k) = false :=
        beq_eq_false_iff_ne.mpr (fun he => hk (by simp [he]))
      unfold assocLookup at hm ⊢
      simp only [List.find?_cons, hne2]
      exact hm

lemma createChannels_channels (sid uid : Nat) (catMap : List (String × Nat)) :
    ∀ (chans : List BackupChannel) (st : DbState) (m : List (String × Nat)) (n : Nat),
      (createChannels sid uid catMap chans st m n).1.channels =
        st.channels ++ channelRows sid catMap chans st.nextId ∧
      (createChannels sid uid catMap chans st m n).1.roles = st.roles ∧
      (createChannels sid uid catMap chans st m n).1.overwrites = st.overwrites := by
  intro chans
  induction chans with
  | nil => intro st m n; unfold createChannels channelRows; simp
  | cons ch rest ih =>
    intro st m n
    unfold createChannels channelRows
    by_cases hdm : (ch.channel_type == "dm" || ch.channel_type == "group_dm") = true
    · rw [hdm]; simp only [if_true]
      exact ih _ _ _
    · rw [Bool.not_eq_true] at hdm
      rw [hdm]; simp only [Bool.false_eq_true, if_false]
      rcases ih ({ st with
          nextId := st.nextId + 1,
          channels := st.channels ++ [buildChannelRow sid catMap st.nextId ch],
          channelMembers :=
            if st.channelMembers.contains (st.nextId, uid) then st.channelMembers
            else st.channelMembers ++ [(st.nextId, uid)] }) ((ch.id, st.nextId) :: m) (n + 1)
        with ⟨h1, h2, h3⟩
      refine ⟨?_, h2, h3⟩
      rw [h1]
      simp [List.append_assoc]

lemma channelRows_mem (sid : Nat) (catMap : List (String × Nat)) :
    ∀ (chans : List BackupChannel) (next : Nat) (ch : BackupChannel),
      ch ∈ chans → (ch.channel_type == "dm" || ch.channel_type == "group_dm") = false →
      ∃ i, buildChannelRow sid catMap i ch ∈ channelRows sid catMap chans next := by
  intro chans
  induction chans with
  | nil => intro next ch h; cases h
  | cons c rest ih =>
    intro next ch hmem hdm
    rcases List.mem_cons.mp hmem with rfl | hmem
    · refine ⟨next, ?_⟩
      unfold channelRows
      rw [hdm]
      simp
    · unfold channelRows
      by_cases hdm2 : (c.channel_type == "dm" || c.channel_type == "group_dm") = true
      · rw [hdm2]; simp only [if_true]
        exact ih next ch hmem hdm
      · rw [Bool.not_eq_true] at hdm2
        rw [hdm2]; simp only [Bool.false_eq_true, if_false]
        rcases ih (next + 1) ch hmem hdm with ⟨i, hi⟩
        exact ⟨i, List.mem_cons_of_mem _ hi⟩

lemma applyRoles_channels (sid : Nat) (ee : Option RoleRow) :
    ∀ (roles : List BackupRole) (st : DbState) (m : List (String × Nat)) (c u : Nat),
      (applyRoles sid ee roles st m c u).1.channels = st.channels ∧
      (applyRoles sid ee roles st m c u).1.overwrites = st.overwrites := by
  intro roles
  induction roles with
  | nil => intro st m c u; exact ⟨rfl, rfl⟩
  | cons r rest ih =>
    intro st m c u
    unfold applyRoles
    by_cases hdef : r.is_default = true
    · rw [hdef]; simp only [if_true]
      cases ee with
      | some ev => exact ih _ _ _ _
      | none => exact ih _ _ _ _
    · rw [Bool.not_eq_true] at hdef
      rw [hdef]; simp only [Bool.false_eq_true, if_false]
      exact ih _ _ _ _

lemma applyOverwrites_channels (chMap roleMap : List (String × Nat)) :
    ∀ (ows : List BackupOverwrite) (st : DbState) (n : Nat),
      (applyOverwrites chMap roleMap ows st n).1.channels = st.channels ∧
      (applyOverwrites chMap roleMap ows st n).1.roles = st.roles := by
  intro ows
  induction ows with
  | nil => intro st n; exact ⟨rfl, rfl⟩
  | cons ow rest ih =>
    intro st n
    unfold applyOverwrites
    by_cases hmem : (ow.target_type == "member") = true
    · rw [hmem]; simp only [if_true]
      exact ih _ _
    · rw [Bool.not_eq_true] at hmem
      rw [hmem]; simp only [Bool.false_eq_true, if_false]
      cases assocLookup chMap ow.channel_id with
      | none => exact ih _ _
      | some cid =>
        cases assocLookup roleMap ow.target_id with
        | none => exact ih _ _
        | some tid => exact ih _ _

/-- C9: an authorized restore creates a backup channel (of non-dm,
non-group_dm type) whose category reference is absent or does not
resolve among the submitted categories as a channel with no category,
and the restore is not rejected. -/
theorem c9_unresolved_category (env : Env) (st : DbState) (uid sid : Nat)
    (req : RestoreServerRequest) (ch : BackupChannel)
    (hm : env.is_server_member sid uid = true) (hp : authOk env sid uid)
    (h1 : req.categories.length ≤ 50) (h2 : req.channels.length ≤ 500)
    (h3 : req.roles.length ≤ 250)
    (hmem : ch ∈ req.channels)
    (hdm : (ch.channel_type == "dm" || ch.channel_type == "group_dm") = false)
    (hcat : ch.category_id = none ∨
      ∀ cid, ch.category_id = some cid → cid ∉ req.categories.map (fun c => c.id)) :
    ∃ resp st', restore_server env st uid sid req = (.ok resp, st') ∧
      ∃ c ∈ st'.channels, c.server_id = some sid ∧ c.encrypted_meta = ch.name ∧
        c.channel_type = ch.channel_type ∧ c.position = ch.position ∧
        c.is_private = ch.is_private ∧ c.category_id = none := by
  unfold restore_server
  simp only [hm, Bool.not_true, Bool.false_eq_true, if_false, authOk_cond hp,
    Nat.not_lt.mpr h1, Nat.not_lt.mpr h2, Nat.not_lt.mpr h3]
  refine ⟨_, _, rfl, ?_⟩
  -- name the intermediate states
  set st1 := wipeServer sid st with hst1
  set cc := createCategories sid req.categories st1 [] 0 with hcc
  set chs := createChannels sid uid cc.2.1 req.channels cc.1 [] 0 with hchs
  -- the channel row created for ch has no category
  have hrow_cat : (ch.category_id.bind (fun old => assocLookup cc.2.1 old)) = none := by
    rcases hcat with hnone | hbad
    · rw [hnone]; rfl
    · cases hco : ch.category_id with
      | none => rfl
      | some cid =>
        have : assocLookup cc.2.1 cid = none := by
          rw [hcc]
          exact createCategories_lookup_none sid req.categories st1 [] 0 cid
            (hbad cid hco) rfl
        simp [hco, this]
  rcases channelRows_mem sid cc.2.1 req.channels cc.1.nextId ch hmem hdm with ⟨i, hi⟩
  have hrowmem : buildChannelRow sid cc.2.1 i ch ∈ chs.1.channels := by
    rw [hchs]
    rcases createChannels_channels sid uid cc.2.1 req.channels cc.1 [] 0 with ⟨hch, _, _⟩
    rw [hch]
    exact List.mem_append_right _ hi
  -- channels unchanged by the later steps
  set ee := chs.1.roles.find? (fun r => r.server_id == sid && r.is_default) with hee
  set ro := applyRoles sid ee req.roles chs.1 [] 0 0 with hro
  set ov := applyOverwrites chs.2.1 ro.2.1 req.permission_overwrites ro.1 0 with hov
  have hfinal : ov.1.channels = chs.1.channels := by
    rw [hov, hro]
    rcases applyOverwrites_channels chs.2.1 (applyRoles sid ee req.roles chs.1 [] 0 0).2.1
      req.permission_overwrites (applyRoles sid ee req.roles chs.1 [] 0 0).1 0 with ⟨ho1, _⟩
    rcases applyRoles_channels sid ee req.roles chs.1 [] 0 0 with ⟨hr1, _⟩
    rw [ho1, hr1]
  refine ⟨buildChannelRow sid cc.2.1 i ch, ?_, rfl, rfl, rfl, rfl, rfl, hrow_cat⟩
  rw [hfinal]
  exact hrowmem

lemma wipe_keeps_defaults {sid : Nat} {st : DbState} {r : RoleRow}
    (hr : r ∈ st.roles) (hd : r.is_default = true) :
    r ∈ (wipeServer sid st).roles := by
  unfold wipeServer
  simp only [List.mem_filter]
  exact ⟨hr, by simp [hd]⟩

lemma wipe_hasDefault (sid : Nat) (st : DbState) :
    (wipeServer sid st).roles.any (fun r => r.server_id == sid && r.is_default) =
      hasLiveDefault st sid := by
  unfold wipeServer hasLiveDefault
  simp only []
  apply Bool.eq_iff_iff.mpr
  constructor
  · intro hc
    rcases List.any_eq_true.mp hc with ⟨r, hr, hp⟩
    exact List.any_eq_true.mpr ⟨r, (List.mem_filter.mp hr).1, hp⟩
  · intro hc
    rcases List.any_eq_true.mp hc with ⟨r, hr, hp⟩
    have hd : r.is_default = true := by
      simp only [Bool.and_eq_true] at hp
      exact hp.2
    exact List.any_eq_true.mpr ⟨r, List.mem_filter.mpr ⟨hr, by simp [hd]⟩, hp⟩

lemma updatePermsById_mem (rid : Nat) (perms : Int) {roles : List RoleRow}
    {r : RoleRow} (hr : r ∈ roles) :
    ∃ q, { r with permissions := q } ∈ updatePermsById rid perms roles := by
  by_cases h : (r.id == rid) = true
  · exact ⟨perms, by
      unfold updatePermsById
      exact List.mem_map.mpr ⟨r, hr, by rw [h]; simp⟩⟩
  · exact ⟨r.permissions, by
      unfold updatePermsById
      rw [Bool.not_eq_true] at h
      exact List.mem_map.mpr ⟨r, hr, by rw [h]; simp⟩⟩

lemma applyRoles_preserves (sid : Nat) (ee : Option RoleRow) :
    ∀ (roles : List BackupRole) (st : DbState) (m : List (String × Nat)) (c u : Nat)
      (r : RoleRow), r ∈ st.roles →
      ∃ q, { r with permissions := q } ∈ (applyRoles sid ee roles st m c u).1.roles := by
  intro roles
  induction roles with
  | nil => intro st m c u r hr; exact ⟨r.permissions, hr⟩
  | cons role rest ih =>
    intro st m c u r hr
    unfold applyRoles
    by_cases hdef : role.is_default = true
    · rw [hdef]; simp only [if_true]
      cases ee with
      | some ev =>
        rcases updatePermsById_mem ev.id role.permissions hr with ⟨q, hq⟩
        rcases ih ({ st with roles := updatePermsById ev.id role.permissions st.roles })
          ((role.id, ev.id) :: m) c (u + 1) _ hq with ⟨q2, hq2⟩
        exact ⟨q2, hq2⟩
      | none => exact ih _ _ _ _ _ hr
    · rw [Bool.not_eq_true] at hdef
      rw [hdef]; simp only [Bool.false_eq_true, if_false]
      exact ih _ _ _ _ _ (List.mem_append_left _ hr)

lemma applyRoles_counts (sid : Nat) (ee : Option RoleRow) :
    ∀ (roles : List BackupRole) (st : DbState) (m : List (String × Nat)) (c u : Nat),
      (applyRoles sid ee roles st m c u).2.2.1 =
        c + (roles.filter (fun r => !r.is_default)).length ∧
      (applyRoles sid ee roles st m c u).2.2.2 =
        u + (if ee.isSome then (roles.filter (fun r => r.is_default)).length else 0) := by
  intro roles
  induction roles with
  | nil => intro st m c u; simp [applyRoles]
  | cons role rest ih =>
    intro st m c u
    unfold applyRoles
    by_cases hdef : role.is_default = true
    · rw [hdef]; simp only [if_true]
      cases ee with
      | some ev =>
        rcases ih ({ st with roles := updatePermsById ev.id role.permissions st.roles })
          ((role.id, ev.id) :: m) c (u + 1) with ⟨h1, h2⟩
        constructor
        · rw [h1]; simp [List.filter, hdef]
        · rw [h2]; simp [List.filter, hdef]
          omega
      | none =>
        rcases ih st m c u with ⟨h1, h2⟩
        constructor
        · rw [h1]; simp [List.filter, hdef]
        · rw [h2]; simp [List.filter, hdef]
    · rw [Bool.not_eq_true] at hdef
      rw [hdef]; simp only [Bool.false_eq_true, if_false]
      rcases ih ({ st with
          nextId := st.nextId + 1,
          roles := st.roles ++
            [{ id := st.nextId, server_id := sid, name := role.name,
               color := role.color, permissions := role.permissions,
               position := role.position, is_default := false }] })
        ((role.id, st.nextId) :: m) (c + 1) u with ⟨h1, h2⟩
      constructor
      · rw [h1]; simp [List.filter, hdef]
        omega
      · rw [h2]; simp [List.filter, hdef]

lemma applyRoles_none_no_default (sid : Nat) :
    ∀ (roles : List BackupRole) (st : DbState) (m : List (String × Nat)) (c u : Nat),
      ∃ L, (applyRoles sid none roles st m c u).1.roles = st.roles ++ L ∧
        ∀ r ∈ L, r.is_default = false := by
  intro roles
  induction roles with
  | nil => intro st m c u; exact ⟨[], by simp [applyRoles], by simp⟩
  | cons role rest ih =>
    intro st m c u
    unfold applyRoles
    by_cases hdef : role.is_default = true
    · rw [hdef]; simp only [if_true]
      exact ih _ _ _ _
    · rw [Bool.not_eq_true] at hdef
      rw [hdef]; simp only [Bool.false_eq_true, if_false]
      rcases ih ({ st with
          nextId := st.nextId + 1,
          roles := st.roles ++
            [{ id := st.nextId, server_id := sid, name := role.name,
               color := role.color, permissions := role.permissions,
               position := role.position, is_default := false }] })
        ((role.id, st.nextId) :: m) (c + 1) u with ⟨L, hL, hLd⟩
      refine ⟨{ id := st.nextId, server_id := sid, name := role.name,
                color := role.color, permissions := role.permissions,
                position := role.position, is_default := false } :: L, ?_, ?_⟩
      · rw [hL]; simp
      · intro r hrm
        rcases List.mem_cons.mp hrm with rfl | hrm
        · rfl
        · exact hLd r hrm

/-- C3: an authorized restore never deletes a default role; a backup
role marked default is counted in rolesUpdated (exactly when a live
default role exists) and never in rolesCreated, which counts exactly the
non-default backup roles; and when no live default role exists the
backup's default entries are silently not applied (no role for the
server is default afterwards) and the restore still succeeds. -/
theorem c3_default_role (env : Env) (st : DbState) (uid sid : Nat)
    (req : RestoreServerRequest)
    (hm : env.is_server_member sid uid = true) (hp : authOk env sid uid)
    (h1 : req.categories.length ≤ 50) (h2 : req.channels.length ≤ 500)
    (h3 : req.roles.length ≤ 250) :
    ∃ resp st', restore_server env st uid sid req = (.ok resp, st') ∧
      (∀ r ∈ st.roles, r.is_default = true →
        ∃ q, { r with permissions := q } ∈ st'.roles) ∧
      resp.roles_created = (req.roles.filter (fun r => !r.is_default)).length ∧
      resp.roles_updated = (if hasLiveDefault st sid then
        (req.roles.filter (fun r => r.is_default)).length else 0) ∧
      (hasLiveDefault st sid = false →
        ∀ r ∈ st'.roles, r.server_id = sid → r.is_default = false) := by
  unfold restore_server
  simp only [hm, Bool.not_true, Bool.false_eq_true, if_false, authOk_cond hp,
    Nat.not_lt.mpr h1, Nat.not_lt.mpr h2, Nat.not_lt.mpr h3]
  refine ⟨_, _, rfl, ?_, ?_, ?_, ?_⟩
  all_goals
    set st1 := wipeServer sid st with hst1
    set cc := createCategories sid req.categories st1 [] 0 with hcc
    set chs := createChannels sid uid cc.2.1 req.channels cc.1 [] 0 with hchs
    set ee := chs.1.roles.find? (fun r => r.server_id == sid && r.is_default) with hee
    set ro := applyRoles sid ee req.roles chs.1 [] 0 0 with hro
    set ov := applyOverwrites chs.2.1 ro.2.1 req.permission_overwrites ro.1 0 with hov
    have hroles3 : chs.1.roles = st1.roles := by
      rw [hchs]
      rcases createChannels_channels sid uid cc.2.1 req.channels cc.1 [] 0
        with ⟨_, hr, _⟩
      rw [hr, hcc]
      exact (createCategories_frame sid req.categories st1 [] 0).2.1
    have hroles5 : ov.1.roles = ro.1.roles := by
      rw [hov]
      exact (applyOverwrites_channels chs.2.1 ro.2.1 req.permission_overwrites ro.1 0).2
    have heq : ee.isSome = hasLiveDefault st sid := by
      rw [hee]
      apply Bool.eq_iff_iff.mpr
      rw [← wipe_hasDefault sid st, ← hst1, ← hroles3]
      constructor
      · intro hc
        rcases List.find?_isSome.mp hc with ⟨x, hx, hpx⟩
        exact List.any_eq_true.mpr ⟨x, hx, hpx⟩
      · intro hc
        rcases List.any_eq_true.mp hc with ⟨x, hx, hpx⟩
        exact List.find?_isSome.mpr ⟨x, hx, hpx⟩
  · -- default preservation
    intro r hr hd
    have hr1 : r ∈ st1.roles := wipe_keeps_defaults hr hd
    have hr3 : r ∈ chs.1.roles := by rw [hroles3]; exact hr1
    rcases applyRoles_preserves sid ee req.roles chs.1 [] 0 0 r hr3 with ⟨q, hq⟩
    rw [← hro] at hq
    exact ⟨q, by rw [hroles5]; exact hq⟩
  · -- roles_created
    simp only []
    rw [hro, (applyRoles_counts sid ee req.roles chs.1 [] 0 0).1]
    simp
  · -- roles_updated
    simp only []
    rw [hro, (applyRoles_counts sid ee req.roles chs.1 [] 0 0).2, heq]
    simp
  · -- no live default: nothing default for this server afterwards
    intro hnone r hr hsrv
    have hee_none : ee = none := by
      cases hv : ee with
      | none => rfl
      | some x =>
        rw [hv] at heq
        rw [hnone] at heq
        cases heq
    rw [hroles5] at hr
    rw [hro, hee_none] at hr
    rcases applyRoles_none_no_default sid req.roles chs.1 [] 0 0 with ⟨L, hL, hLd⟩
    rw [hL] at hr
    rcases List.mem_append.mp hr with hr3 | hrL
    · -- a role surviving the wipe for this server that is default would
      -- contradict hasLiveDefault st sid = false
      rw [hroles3] at hr3
      by_cases hd : r.is_default = true
      · exfalso
        have : hasLiveDefault st sid = true := by
          rw [← wipe_hasDefault sid st]
          exact List.any_eq_true.mpr ⟨r, hr3, by simp [hsrv, hd]⟩
        rw [hnone] at this
        cases this
      · exact Bool.not_eq_true _ ▸ hd
    · exact hLd r hrL

lemma applyOverwrites_filter_member (chMap roleMap : List (String × Nat)) :
    ∀ (ows : List BackupOverwrite) (st : DbState) (n : Nat),
      applyOverwrites chMap roleMap
        (ows.filter (fun ow => !(ow.target_type == "member"))) st n =
        applyOverwrites chMap roleMap ows st n := by
  intro ows
  induction ows with
  | nil => intro st n; rfl
  | cons ow rest ih =>
    intro st n
    by_cases hmem : (ow.target_type == "member") = true
    · rw [List.filter_cons_of_neg (by simp [hmem])]
      conv_rhs => unfold applyOverwrites
      rw [hmem]
      simp only [if_true]
      exact ih st n
    · rw [Bool.not_eq_true] at hmem
      rw [List.filter_cons_of_pos (by simp [hmem])]
      conv_lhs => unfold applyOverwrites
      conv_rhs => unfold applyOverwrites
      rw [hmem]
      simp only [Bool.false_eq_true, if_false]
      cases assocLookup chMap ow.channel_id with
      | none => dsimp only; exact ih st n
      | some cid =>
        cases assocLookup roleMap ow.target_id with
        | none => dsimp only; exact ih st n
        | some tid => dsimp only; exact ih _ (n + 1)

lemma applyOverwrites_count (chMap roleMap : List (String × Nat)) :
    ∀ (ows : List BackupOverwrite) (st : DbState) (n : Nat),
      (applyOverwrites chMap roleMap ows st n).2 =
        n + (ows.filter (fun ow => !(ow.target_type == "member") &&
          (assocLookup chMap ow.channel_id).isSome &&
          (assocLookup roleMap ow.target_id).isSome)).length := by
  intro ows
  induction ows with
  | nil => intro st n; simp [applyOverwrites]
  | cons ow rest ih =>
    intro st n
    unfold applyOverwrites
    by_cases hmem : (ow.target_type == "member") = true
    · rw [hmem]
      simp only [if_true]
      rw [List.filter_cons_of_neg (by simp [hmem])]
      exact ih st n
    · rw [Bool.not_eq_true] at hmem
      rw [hmem]
      simp only [Bool.false_eq_true, if_false]
      cases hch : assocLookup chMap ow.channel_id with
      | none =>
        dsimp only
        rw [List.filter_cons_of_neg (by simp [hmem, hch])]
        exact ih st n
      | some cid =>
        cases hrl : assocLookup roleMap ow.target_id with
        | none =>
          dsimp only
          rw [List.filter_cons_of_neg (by simp [hmem, hch, hrl])]
          exact ih st n
        | some tid =>
          dsimp only
          rw [List.filter_cons_of_pos (by simp [hmem, hch, hrl])]
          rw [ih _ (n + 1)]
          simp only [List.length_cons]
          omega

lemma assocLookup_cons_isSome (a : String) (b : Nat) (m : List (String × Nat))
    (k : String) :
    (assocLookup ((a, b) :: m) k).isSome = true ↔
      (k = a ∨ (assocLookup m k).isSome = true) := by
  unfold assocLookup
  by_cases h : (a == k) = true
  · have : k = a := (beq_iff_eq.mp h).symm
    simp [List.find?_cons, h, this]
  · have hne : ¬(k = a) := fun he => h (beq_iff_eq.mpr he.symm)
    rw [Bool.not_eq_true] at h
    simp only [List.find?_cons]
    rw [show ((a, b).1 == k) = false from h]
    simp [hne]

lemma createChannels_lookup_isSome (sid uid : Nat) (catMap : List (String × Nat)) :
    ∀ (chans : List BackupChannel) (st : DbState) (m : List (String × Nat)) (n : Nat)
      (k : String),
      (assocLookup (createChannels sid uid catMap chans st m n).2.1 k).isSome = true ↔
        (k ∈ (chans.filter (fun c =>
            !(c.channel_type == "dm" || c.channel_type == "group_dm"))).map
          (fun c => c.id) ∨ (assocLookup m k).isSome = true) := by
  intro chans
  induction chans with
  | nil => intro st m n k; simp [createChannels]
  | cons ch rest ih =>
    intro st m n k
    unfold createChannels
    by_cases hdm : (ch.channel_type == "dm" || ch.channel_type == "group_dm") = true
    · rw [hdm]
      simp only [if_true]
      rw [List.filter_cons_of_neg (by simp [hdm])]
      exact ih st m n k
    · rw [Bool.not_eq_true] at hdm
      rw [hdm]
      simp only [Bool.false_eq_true, if_false]
      rw [List.filter_cons_of_pos (by simp [hdm])]
      rw [ih _ _ _ k, assocLookup_cons_isSome]
      simp only [List.map_cons, List.mem_cons]
      tauto

lemma applyRoles_lookup_isSome (sid : Nat) (ee : Option RoleRow) :
    ∀ (roles : List BackupRole) (st : DbState) (m : List (String × Nat)) (c u : Nat)
      (k : String),
      (assocLookup (applyRoles sid ee roles st m c u).2.1 k).isSome = true ↔
        (k ∈ ((if ee.isSome then roles else
            roles.filter (fun r => !r.is_default)).map (fun r => r.id)) ∨
          (assocLookup m k).isSome = true) := by
  intro roles
  induction roles with
  | nil =>
    intro st m c u k
    cases ee with
    | none => simp [applyRoles]
    | some ev => simp [applyRoles]
  | cons role rest ih =>
    intro st m c u k
    unfold applyRoles
    by_cases hdef : role.is_default = true
    · rw [hdef]
      simp only [if_true]
      cases ee with
      | some ev =>
        rw [ih _ _ _ _ k, assocLookup_cons_isSome]
        simp only [Option.isSome_some, if_true, List.map_cons, List.mem_cons]
        tauto
      | none =>
        rw [ih _ _ _ _ k]
        simp only [Option.isSome_none, Bool.false_eq_true, if_false]
        rw [List.filter_cons_of_neg (by simp [hdef])]
    · rw [Bool.not_eq_true] at hdef
      rw [hdef]
      simp only [Bool.false_eq_true, if_false]
      rw [ih _ _ _ _ k, assocLookup_cons_isSome]
      cases ee with
      | some ev =>
        simp only [Option.isSome_some, if_true, List.map_cons, List.mem_cons]
        tauto
      | none =>
        simp only [Option.isSome_none, Bool.false_eq_true, if_false]
        rw [List.filter_cons_of_pos (by simp [hdef])]
        simp only [List.map_cons, List.mem_cons]
        tauto

/-- C2 (amended): dropping the member-targeted overwrites from a restore
request does not change its result — so a target_type = member overwrite
is never applied regardless of content — and an authorized restore
applies exactly the overwrites whose target_type differs from the string
"member" (not only "role") and whose channel and role references resolve
in the identifier maps; unresolvable ones are skipped without error. -/
theorem c2_member_overwrites (env : Env) (st : DbState) (uid sid : Nat)
    (req : RestoreServerRequest)
    (hm : env.is_server_member sid uid = true) (hp : authOk env sid uid)
    (h1 : req.categories.length ≤ 50) (h2 : req.channels.length ≤ 500)
    (h3 : req.roles.length ≤ 250) :
    restore_server env st uid sid
      { req with permission_overwrites :=
          req.permission_overwrites.filter (fun ow => !(ow.target_type == "member")) } =
      restore_server env st uid sid req ∧
    ∃ resp st', restore_server env st uid sid req = (.ok resp, st') ∧
      resp.overwrites_applied = (req.permission_overwrites.filter (fun ow =>
        !(ow.target_type == "member") &&
        ((req.channels.filter (fun c =>
            !(c.channel_type == "dm" || c.channel_type == "group_dm"))).map
          (fun c => c.id)).contains ow.channel_id &&
        ((if hasLiveDefault st sid then req.roles else
            req.roles.filter (fun r => !r.is_default)).map
          (fun r => r.id)).contains ow.target_id)).length := by
  constructor
  · unfold restore_server
    simp only []
    split
    · rfl
    · split
      · rfl
      · split
        · rfl
        · split
          · rfl
          · split
            · rfl
            · rw [applyOverwrites_filter_member]
  · unfold restore_server
    simp only [hm, Bool.not_true, Bool.false_eq_true, if_false, authOk_cond hp,
      Nat.not_lt.mpr h1, Nat.not_lt.mpr h2, Nat.not_lt.mpr h3]
    refine ⟨_, _, rfl, ?_⟩
    simp only []
    set st1 := wipeServer sid st with hst1
    set cc := createCategories sid req.categories st1 [] 0 with hcc
    set chs := createChannels sid uid cc.2.1 req.channels cc.1 [] 0 with hchs
    set ee := chs.1.roles.find? (fun r => r.server_id == sid && r.is_default) with hee
    set ro := applyRoles sid ee req.roles chs.1 [] 0 0 with hro
    have hroles3 : chs.1.roles = st1.roles := by
      rw [hchs]
      rcases createChannels_channels sid uid cc.2.1 req.channels cc.1 [] 0
        with ⟨_, hr, _⟩
      rw [hr, hcc]
      exact (createCategories_frame sid req.categories st1 [] 0).2.1
    have heq : ee.isSome = hasLiveDefault st sid := by
      rw [hee]
      apply Bool.eq_iff_iff.mpr
      rw [← wipe_hasDefault sid st, ← hst1, ← hroles3]
      constructor
      · intro hc
        rcases List.find?_isSome.mp hc with ⟨x, hx, hpx⟩
        exact List.any_eq_true.mpr ⟨x, hx, hpx⟩
      · intro hc
        rcases List.any_eq_true.mp hc with ⟨x, hx, hpx⟩
        exact List.find?_isSome.mpr ⟨x, hx, hpx⟩
    rw [applyOverwrites_count chs.2.1 ro.2.1 req.permission_overwrites ro.1 0]
    have hpt : ∀ ow ∈ req.permission_overwrites,
        (!(ow.target_type == "member") &&
          (assocLookup chs.2.1 ow.channel_id).isSome &&
          (assocLookup ro.2.1 ow.target_id).isSome) =
        (!(ow.target_type == "member") &&
          ((req.channels.filter (fun c =>
              !(c.channel_type == "dm" || c.channel_type == "group_dm"))).map
            (fun c => c.id)).contains ow.channel_id &&
          ((if hasLiveDefault st sid then req.roles else
              req.roles.filter (fun r => !r.is_default)).map
            (fun r => r.id)).contains ow.target_id) := by
      intro ow _
      have hchl : (assocLookup chs.2.1 ow.channel_id).isSome =
          ((req.channels.filter (fun c =>
              !(c.channel_type == "dm" || c.channel_type == "group_dm"))).map
            (fun c => c.id)).contains ow.channel_id := by
        apply Bool.eq_iff_iff.mpr
        rw [hchs]
        rw [createChannels_lookup_isSome sid uid cc.2.1 req.channels cc.1 [] 0
          ow.channel_id]
        have hnil : (assocLookup [] ow.channel_id).isSome = false := rfl
        rw [hnil]
        simp only [Bool.false_eq_true, or_false]
        constructor
        · intro hmem2
          exact List.elem_iff.mpr hmem2
        · intro hc
          exact List.elem_iff.mp hc
      have hrll : (assocLookup ro.2.1 ow.target_id).isSome =
          ((if hasLiveDefault st sid then req.roles else
              req.roles.filter (fun r => !r.is_default)).map
            (fun r => r.id)).contains ow.target_id := by
        apply Bool.eq_iff_iff.mpr
        rw [hro]
        rw [applyRoles_lookup_isSome sid ee req.roles chs.1 [] 0 0 ow.target_id]
        have hnil : (assocLookup [] ow.target_id).isSome = false := rfl
        rw [hnil, heq]
        simp only [Bool.false_eq_true, or_false]
        constructor
        · intro hmem2
          exact List.elem_iff.mpr hmem2
        · intro hc
          exact List.elem_iff.mp hc
      rw [hchl, hrll]
    rw [List.filter_congr hpt]
    simp

/-! ## Canonicalization is invariant under key order -/

lemma mem_insertKV {x : String × Json} {k : String} {v : Json} :
    ∀ {l : List (String × Json)}, x ∈ insertKV k v l → x = (k, v) ∨ x ∈ l := by
  intro l
  induction l with
  | nil => intro h; unfold insertKV at h; simp at h; exact .inl h
  | cons p rest ih =>
    intro h
    unfold insertKV at h
    by_cases h1 : k < p.1
    · rw [if_pos h1] at h
      rcases List.mem_cons.mp h with rfl | h2
      · exact .inl rfl
      · exact .inr h2
    · rw [if_neg h1] at h
      by_cases h2 : k = p.1
      · rw [if_pos h2] at h
        rcases List.mem_cons.mp h with rfl | h3
        · exact .inl rfl
        · exact .inr (List.mem_cons_of_mem _ h3)
      · rw [if_neg h2] at h
        rcases List.mem_cons.mp h with rfl | h3
        · exact .inr (List.mem_cons_self _ _)
        · rcases ih h3 with h4 | h4
          · exact .inl h4
          · exact .inr (List.mem_cons_of_mem _ h4)

lemma insertKV_sorted {k : String} {v : Json} :
    ∀ {l : List (String × Json)}, l.Pairwise ltKeys →
      (insertKV k v l).Pairwise ltKeys := by
  intro l
  induction l with
  | nil => intro _; unfold insertKV; simp [ltKeys]
  | cons p rest ih =>
    intro hs
    rcases List.pairwise_cons.mp hs with ⟨hhd, htl⟩
    unfold insertKV
    by_cases h1 : k < p.1
    · rw [if_pos h1]
      apply List.pairwise_cons.mpr
      refine ⟨?_, hs⟩
      intro x hx
      rcases List.mem_cons.mp hx with rfl | hx2
      · exact h1
      · exact lt_trans h1 (hhd x hx2)
    · rw [if_neg h1]
      by_cases h2 : k = p.1
      · rw [if_pos h2]
        apply List.pairwise_cons.mpr
        refine ⟨?_, htl⟩
        intro x hx
        simp only [ltKeys] at hhd ⊢
        rw [h2]
        exact hhd x hx
      · rw [if_neg h2]
        apply List.pairwise_cons.mpr
        refine ⟨?_, ih htl⟩
        intro x hx
        rcases mem_insertKV hx with rfl | hx2
        · have : p.1 < k := lt_of_le_of_ne (not_lt.mp h1) (fun he => h2 he.symm)
          exact this
        · exact hhd x hx2

lemma insertKV_perm {k : String} {v : Json} :
    ∀ {l : List (String × Json)}, k ∉ l.map Prod.fst →
      (insertKV k v l).Perm ((k, v) :: l) := by
  intro l
  induction l with
  | nil => intro _; unfold insertKV; exact List.Perm.refl _
  | cons p rest ih =>
    intro hk
    have hk1 : k ≠ p.1 := fun he => hk (by simp [he])
    have hk2 : k ∉ rest.map Prod.fst := fun hmem => hk (by simp [hmem])
    unfold insertKV
    by_cases h1 : k < p.1
    · rw [if_pos h1]
    · rw [if_neg h1, if_neg hk1]
      exact ((ih hk2).cons p).trans (List.Perm.swap _ _ _)

lemma dedupSort_go_sorted :
    ∀ (l acc : List (String × Json)), acc.Pairwise ltKeys →
      (l.foldl (fun acc kv => insertKV kv.1 kv.2 acc) acc).Pairwise ltKeys := by
  intro l
  induction l with
  | nil => intro acc h; exact h
  | cons kv rest ih =>
    intro acc h
    exact ih _ (insertKV_sorted h)

lemma dedupSort_go_perm :
    ∀ (l acc : List (String × Json)), ((acc ++ l).map Prod.fst).Nodup →
      (l.foldl (fun acc kv => insertKV kv.1 kv.2 acc) acc).Perm (acc ++ l) := by
  intro l
  induction l with
  | nil => intro acc h; simp
  | cons kv rest ih =>
    intro acc h
    have hknotin : kv.1 ∉ acc.map Prod.fst := by
      intro hc
      rw [List.map_append] at h
      rcases (List.nodup_append.mp h) with ⟨_, _, hdisj⟩
      exact hdisj hc (by simp)
    have hins : (insertKV kv.1 kv.2 acc).Perm ((kv.1, kv.2) :: acc) :=
      insertKV_perm hknotin
    have hperm1 : ((insertKV kv.1 kv.2 acc) ++ rest).Perm (acc ++ kv :: rest) := by
      have h1 : ((insertKV kv.1 kv.2 acc) ++ rest).Perm (((kv.1, kv.2) :: acc) ++ rest) :=
        hins.append_right rest
      have h2 : (((kv.1, kv.2) :: acc) ++ rest).Perm (acc ++ kv :: rest) := by
        simp only [List.cons_append]
        exact List.perm_middle.symm
      exact h1.trans h2
    have hnodup : (((insertKV kv.1 kv.2 acc) ++ rest).map Prod.fst).Nodup := by
      have hp : (((insertKV kv.1 kv.2 acc) ++ rest).map Prod.fst).Perm
          ((acc ++ kv :: rest).map Prod.fst) := hperm1.map Prod.fst
      exact hp.nodup_iff.mpr h
    have := ih (insertKV kv.1 kv.2 acc) hnodup
    exact this.trans hperm1

lemma dedupSortKvs_eq_of_perm {l1 l2 : List (String × Json)}
    (hperm : l1.Perm l2) (hnd : (l1.map Prod.fst).Nodup) :
    dedupSortKvs l1 = dedupSortKvs l2 := by
  have hnd2 : (l2.map Prod.fst).Nodup := ((hperm.map Prod.fst).nodup_iff).mp hnd
  have h1 : (dedupSortKvs l1).Perm l1 := by
    have := dedupSort_go_perm l1 [] (by simpa using hnd)
    simpa [dedupSortKvs] using this
  have h2 : (dedupSortKvs l2).Perm l2 := by
    have := dedupSort_go_perm l2 [] (by simpa using hnd2)
    simpa [dedupSortKvs] using this
  have hp : (dedupSortKvs l1).Perm (dedupSortKvs l2) :=
    (h1.trans hperm).trans h2.symm
  exact List.eq_of_perm_of_sorted hp
    (dedupSort_go_sorted l1 [] List.Pairwise.nil)
    (dedupSort_go_sorted l2 [] List.Pairwise.nil)


lemma normalizeArr_toList : ∀ (a : JsonArr),
    (JsonArr.normalize a).toList = a.toList.map Json.normalize
  | .nil => rfl
  | .cons x xs => by
    unfold JsonArr.normalize JsonArr.toList
    rw [normalizeArr_toList xs]
    rfl

lemma normalizeObj_toList : ∀ (o : JsonObj),
    (JsonObj.normalize o).toList =
      o.toList.map (fun kv => (kv.1, Json.normalize kv.2))
  | .nil => rfl
  | .cons k v t => by
    unfold JsonObj.normalize JsonObj.toList
    rw [normalizeObj_toList t]
    rfl

lemma arrToList_inj : ∀ {xs ys : JsonArr}, xs.toList = ys.toList → xs = ys
  | .nil, .nil, _ => rfl
  | .nil, .cons y ys, h => by cases h
  | .cons x xs, .nil, h => by cases h
  | .cons x xs, .cons y ys, h => by
    unfold JsonArr.toList at h
    injection h with h1 h2
    rw [h1, arrToList_inj h2]

theorem normalize_eq_of_equiv {a b : Json} (h : JsonEquiv a b) :
    a.normalize = b.normalize := by
  induction h with
  | null => rfl
  | bool b => rfl
  | num n => rfl
  | str s => rfl
  | arr xs ys hlen hv ih =>
    unfold Json.normalize
    congr 1
    apply arrToList_inj
    rw [normalizeArr_toList, normalizeArr_toList]
    apply List.ext_get
    · simp [hlen]
    · intro i h1 h2
      simp only [List.get_eq_getElem, List.getElem_map]
      have := ih i (by simpa using h1) (by simpa using h2)
      simpa using this
  | obj kvs1 kvs2 hn1 hn2 hkeys hv ih =>
    unfold Json.normalize
    congr 1
    congr 1
    rw [normalizeObj_toList, normalizeObj_toList]
    have hkf : ∀ (l : List (String × Json)),
        (l.map (fun kv => (kv.1, Json.normalize kv.2))).map Prod.fst =
          l.map Prod.fst := by
      intro l; rw [List.map_map]; rfl
    have hnd1 : ((kvs1.toList.map (fun kv => (kv.1, Json.normalize kv.2))).map
        Prod.fst).Nodup := by rw [hkf]; exact hn1
    have hnd2 : ((kvs2.toList.map (fun kv => (kv.1, Json.normalize kv.2))).map
        Prod.fst).Nodup := by rw [hkf]; exact hn2
    apply dedupSortKvs_eq_of_perm ?_ hnd1
    apply (List.perm_ext_iff_of_nodup (List.Nodup.of_map _ hnd1)
      (List.Nodup.of_map _ hnd2)).mpr
    intro x
    constructor
    · intro hx
      rcases List.mem_map.mp hx with ⟨kv, hkv, hfx⟩
      have hkmem : kv.1 ∈ kvs2.toList.map Prod.fst :=
        (hkeys kv.1).mp (List.mem_map.mpr ⟨kv, hkv, rfl⟩)
      rcases List.mem_map.mp hkmem with ⟨kv2, hkv2, hk2⟩
      obtain ⟨a2, v2⟩ := kv2
      have ha2 : a2 = kv.1 := hk2
      subst ha2
      have hveq : Json.normalize kv.2 = Json.normalize v2 :=
        ih kv.1 kv.2 v2 hkv hkv2
      apply List.mem_map.mpr
      refine ⟨(kv.1, v2), hkv2, ?_⟩
      show ((kv.1 : String), Json.normalize v2) = x
      rw [← hveq]
      exact hfx
    · intro hx
      rcases List.mem_map.mp hx with ⟨kv, hkv, hfx⟩
      have hkmem : kv.1 ∈ kvs1.toList.map Prod.fst :=
        (hkeys kv.1).mpr (List.mem_map.mpr ⟨kv, hkv, rfl⟩)
      rcases List.mem_map.mp hkmem with ⟨kv1, hkv1, hk1⟩
      obtain ⟨a1, v1⟩ := kv1
      have ha1 : a1 = kv.1 := hk1
      subst ha1
      have hveq : Json.normalize v1 = Json.normalize kv.2 :=
        ih kv.1 v1 kv.2 hkv1 hkv
      apply List.mem_map.mpr
      refine ⟨(kv.1, v1), hkv1, ?_⟩
      show ((kv.1 : String), Json.normalize v1) = x
      rw [hveq]
      exact hfx

/-- C1: manifests with the same logical content (same key/value pairs at
every object level, differing only in object-key order, with
duplicate-free keys) produce the same canonical byte serialization after
serde deserialization, and therefore verify_export returns the same
result for them. -/
theorem c1_canonical_bytes (env : Env) (m1 m2 : Json) (sig : String)
    (h : JsonEquiv m1 m2) :
    (Json.serialize (Json.normalize m1)) = (Json.serialize (Json.normalize m2)) ∧
    verify_export env { manifest := m1, signature := sig } =
      verify_export env { manifest := m2, signature := sig } := by
  have hn := normalize_eq_of_equiv h
  refine ⟨by rw [hn], ?_⟩
  unfold verify_export
  simp only []
  rw [hn]

/-! ## Counterexample and witnesses -/

/-- C2 counterexample: restoring `reqX` into a state with no overwrites
succeeds and inserts an overwrite whose target_type is the string "x",
refuting the claim that no overwrite with a target_type other than role
is ever inserted. -/
theorem c2_counterexample :
    ((restore_server envW stW 42 1 reqX).2.overwrites.filter
      (fun o => o.target_type == "x")).length = 1 ∧
    stW.overwrites.length = 0 ∧
    (restore_server envW stW 42 1 reqX).1.toOption.isSome = true := by
  decide

/-- C1 witness: the two concrete manifests `mA` and `mB` are logically
equal, and the theorem yields identical canonical bytes and identical
verify results for them. -/
theorem c1_witness :
    JsonEquiv mA mB ∧
    (Json.serialize (Json.normalize mA) = Json.serialize (Json.normalize mB) ∧
      verify_export envW { manifest := mA, signature := "AAAA" } =
        verify_export envW { manifest := mB, signature := "AAAA" }) := by
  have hq : JsonEquiv mA mB := by
    apply JsonEquiv.obj
    · decide
    · decide
    · intro k
      show k ∈ ["b", "a"] ↔ k ∈ ["a", "b"]
      constructor <;> intro hk <;>
        simp only [List.mem_cons, List.not_mem_nil, or_false] at hk ⊢ <;> tauto
    · intro k v1 v2 h1 h2
      simp only [JsonObj.toList, List.mem_cons, List.not_mem_nil, or_false,
        Prod.mk.injEq] at h1 h2
      rcases h1 with ⟨hk1, hv1⟩ | ⟨hk1, hv1⟩
      · rcases h2 with ⟨hk2, hv2⟩ | ⟨hk2, hv2⟩
        · exact absurd (hk1.symm.trans hk2) (by decide)
        · subst hv1; subst hv2; exact JsonEquiv.num 2
      · rcases h2 with ⟨hk2, hv2⟩ | ⟨hk2, hv2⟩
        · subst hv1; subst hv2; exact JsonEquiv.str "x"
        · exact absurd (hk1.symm.trans hk2) (by decide)
  exact ⟨hq, c1_canonical_bytes envW mA mB "AAAA" hq⟩

/-- C2 witness: the amended theorem instantiated at the "x"-typed
overwrite request. -/
theorem c2_witness :
    envW.is_server_member 1 42 = true ∧
    (restore_server envW stW 42 1
      { reqX with permission_overwrites :=
          reqX.permission_overwrites.filter (fun ow => !(ow.target_type == "member")) } =
      restore_server envW stW 42 1 reqX ∧
    ∃ resp st', restore_server envW stW 42 1 reqX = (.ok resp, st') ∧
      resp.overwrites_applied = (reqX.permission_overwrites.filter (fun ow =>
        !(ow.target_type == "member") &&
        ((reqX.channels.filter (fun c =>
            !(c.channel_type == "dm" || c.channel_type == "group_dm"))).map
          (fun c => c.id)).contains ow.channel_id &&
        ((if hasLiveDefault stW 1 then reqX.roles else
            reqX.roles.filter (fun r => !r.is_default)).map
          (fun r => r.id)).contains ow.target_id)).length) :=
  ⟨rfl, c2_member_overwrites envW stW 42 1 reqX rfl (Or.inl rfl)
    (by decide) (by decide) (by decide)⟩

/-- C3 witness: the theorem instantiated at a backup holding one default
and one custom role against a server with a live default role. -/
theorem c3_witness :
    reqW3.roles.length ≤ 250 ∧
    (∃ resp st', restore_server envW stW 42 1 reqW3 = (.ok resp, st') ∧
      (∀ r ∈ stW.roles, r.is_default = true →
        ∃ q, { r with permissions := q } ∈ st'.roles) ∧
      resp.roles_created = (reqW3.roles.filter (fun r => !r.is_default)).length ∧
      resp.roles_updated = (if hasLiveDefault stW 1 then
        (reqW3.roles.filter (fun r => r.is_default)).length else 0) ∧
      (hasLiveDefault stW 1 = false →
        ∀ r ∈ st'.roles, r.server_id = 1 → r.is_default = false)) :=
  ⟨by decide, c3_default_role envW stW 42 1 reqW3 rfl (Or.inl rfl)
    (by decide) (by decide) (by decide)⟩

set_option maxRecDepth 8000 in
/-- C4 witness: the theorem instantiated at a request with 251 roles. -/
theorem c4_witness :
    250 < reqW4.roles.length ∧
    (((50 < reqW4.categories.length ∨ 500 < reqW4.channels.length ∨
        250 < reqW4.roles.length) →
      ∃ m, restore_server envW stW 42 1 reqW4 = (.error (.Validation m), stW))
    ∧ (reqW4.categories.length ≤ 50 → reqW4.channels.length ≤ 500 →
        reqW4.roles.length ≤ 250 →
      ∃ resp st', restore_server envW stW 42 1 reqW4 = (.ok resp, st'))) :=
  ⟨by decide, c4_restore_caps envW stW 42 1 reqW4 rfl (Or.inl rfl)⟩

/-- C5 witness: one batch whose only record has the unparseable
timestamp "bad". -/
theorem c5_witness :
    parseTimestamp "bad" = none ∧
    ∃ s, import_messages envW stW 42 5 reqW5 = (.error (.Validation s), stW) :=
  ⟨rfl, c5_import_bad_timestamp envW stW 42 5 reqW5 chW 1 (by decide) rfl rfl
    (Or.inl rfl) ⟨msgBad, by decide, rfl⟩⟩

set_option maxRecDepth 8000 in
/-- C6 witness: a batch of 200 well-formed records succeeds with
imported = 200, and a batch of 201 fails with the batch-size
ValidationError leaving the state unchanged. -/
theorem c6_witness :
    (buildRows 5 stW.nextId req200.messages).isOk = true ∧
    (∃ st', import_messages envW stW 42 5 req200 = (.ok { imported := 200 }, st')) ∧
    import_messages envW stW 42 5 req201 =
      (.error (.Validation "Too many messages per batch (max 200)"), stW) := by
  have hok : (buildRows 5 stW.nextId req200.messages).isOk = true := by decide
  exact ⟨hok,
    (c6_import_batch_size envW stW 42 5 req200 chW 1).1 (by decide) rfl rfl
      (Or.inl rfl) hok,
    (c6_import_batch_size envW stW 42 5 req201 chW 1).2 (by decide)⟩

/-- C7 witness: the four-character signature "AAAA" decodes to 3 bytes,
and verification fails with a ValidationError for every environment. -/
theorem c7_witness :
    base64Decode "AAAA" = some [0, 0, 0] ∧
    ∃ m, ∀ env : Env, verify_export env
      { manifest := Json.null, signature := "AAAA" } = .error (.Validation m) :=
  ⟨rfl, c7_sig_length { manifest := Json.null, signature := "AAAA" } [0, 0, 0]
    rfl (by decide)⟩

/-- C8 witness: a signer registered with a 3-byte identity key makes
verify_export answer valid = false without an error, even though the
Ed25519 oracle of the environment would accept anything. -/
theorem c8_witness :
    userW.identity_key.length ≠ 32 ∧
    verify_export envW { manifest := mC8, signature := sig64 } =
      .ok { valid := false,
            signer := some { user_id := userW.id, username := userW.username,
                             display_name := userW.display_name },
            identity_key_matches := false } :=
  ⟨by decide, c8_key_length envW { manifest := mC8, signature := sig64 }
    "00000000-0000-0000-0000-000000000000" userW (List.replicate 64 0)
    (by decide) (by decide) (by decide) (by decide) (by decide)⟩

/-- C9 witness: the theorem instantiated at a channel whose category
reference "nope" resolves to no submitted category. -/
theorem c9_witness :
    chW9 ∈ reqW9.channels ∧
    (∃ resp st', restore_server envW stW 42 1 reqW9 = (.ok resp, st') ∧
      ∃ c ∈ st'.channels, c.server_id = some 1 ∧ c.encrypted_meta = chW9.name ∧
        c.channel_type = chW9.channel_type ∧ c.position = chW9.position ∧
        c.is_private = chW9.is_private ∧ c.category_id = none) :=
  ⟨by decide, c9_unresolved_category envW stW 42 1 reqW9 chW9 rfl (Or.inl rfl)
    (by decide) (by decide) (by decide) (by decide) (by decide)
    (Or.inr (fun cid h => by injection h with h1; cases h1; decide))⟩

/-- C10 witness: a completed verification (here a fully valid one)
reports the signer and an identity_key_matches equal to valid. -/
theorem c10_witness :
    verify_export envW32 { manifest := mC8, signature := sig64 } = .ok respW32 ∧
    (respW32.signer.isSome = true ∧
      respW32.identity_key_matches = respW32.valid) :=
  ⟨rfl, c10_signer_and_key_matches envW32
    { manifest := mC8, signature := sig64 } respW32 rfl⟩
